import Mathlib

/-!
Verification development for the fbx_analyzer scene reconciliation and
validation engine.  The Lean definitions below are a shallow embedding of the
Python sources:

  * `fbx_analyzer/models.py`            — the editable `SceneNode` model tree
  * `fbx_analyzer/core/save_as.py`      — reconciliation, pruning, the save-as
                                          orchestrator prefix and diagnostics
  * `fbx_analyzer/core/validation.py`   — `SceneMetrics.diff`, the skin part of
                                          `AutoRepair`, `_node_path`,
                                          `_find_node_by_path`
  * `fbx_analyzer/utils.py`             — `resolve_enum_value` (abstracted as a
                                          resolver function parameter)

Modelling conventions:
  * The opaque FBX scene is modelled as a `Store`: an association list from
    64-bit unique ids (modelled as `Nat`) to node records, plus the root uid
    and a counter for freshly minted ids.  Parent pointers are derived from
    the children lists, which matches the SDK on well-formed (tree-shaped)
    scenes.
  * Transform components and matrices are opaque numeric payloads (`Int`);
    the code under verification only copies and compares them, it never does
    float arithmetic on them.
  * `resolve_enum_value(fbx.FbxSkeleton, name)` is abstracted as a parameter
    `resolve : String → Option Nat`; `none` stands both for the
    `AttributeError` raised on failure and for a `None`-valued attribute,
    which the Python caller treats identically.
-/

set_option maxRecDepth 8000

/-! ## The editable model tree (`models.py`, `SceneNode`) -/

abbrev Vec3 := Int × Int × Int

inductive SceneNode : Type where
  | mk (name : String) (attribute_type : String) (attribute_class : String)
       (translation : Vec3) (rotation : Vec3) (scaling : Vec3)
       (uid : Option Nat) (parent_uid : Option Nat)
       (original_path : List Nat)
       (children : List SceneNode)

namespace SceneNode

def name : SceneNode → String
  | .mk n _ _ _ _ _ _ _ _ _ => n

def attribute_type : SceneNode → String
  | .mk _ a _ _ _ _ _ _ _ _ => a

def attribute_class : SceneNode → String
  | .mk _ _ a _ _ _ _ _ _ _ => a

def translation : SceneNode → Vec3
  | .mk _ _ _ t _ _ _ _ _ _ => t

def rotation : SceneNode → Vec3
  | .mk _ _ _ _ r _ _ _ _ _ => r

def scaling : SceneNode → Vec3
  | .mk _ _ _ _ _ s _ _ _ _ => s

def uid : SceneNode → Option Nat
  | .mk _ _ _ _ _ _ u _ _ _ => u

def parent_uid : SceneNode → Option Nat
  | .mk _ _ _ _ _ _ _ p _ _ => p

def original_path : SceneNode → List Nat
  | .mk _ _ _ _ _ _ _ _ o _ => o

def children : SceneNode → List SceneNode
  | .mk _ _ _ _ _ _ _ _ _ c => c

-- Pre-order traversal, mirroring `SceneNode.walk` in `models.py`.
mutual

def walk : SceneNode → List SceneNode
  | .mk n a b t r s u p o cs => .mk n a b t r s u p o cs :: walkList cs

def walkList : List SceneNode → List SceneNode
  | [] => []
  | c :: cs => walk c ++ walkList cs

end

/-- The uids of the model nodes in pre-order (defaulting an unset uid to 0). -/
def uidD (m : SceneNode) : Nat := m.uid.getD 0

def preUids (m : SceneNode) : List Nat := m.walk.map uidD

-- Height of the model tree (used only to discharge the traversal fuel).
mutual

def height : SceneNode → Nat
  | .mk _ _ _ _ _ _ _ _ _ cs => heightList cs + 1

def heightList : List SceneNode → Nat
  | [] => 0
  | c :: cs => max (height c) (heightList cs)

end

end SceneNode

/-! ## The FBX scene store -/

/-- Node attribute payloads (`FbxSkeleton` with its skeleton type,
`FbxMesh`, or any other attribute class). -/
inductive NodeAttr : Type where
  | skeleton (role : Nat)
  | mesh
  | otherAttr (tag : String)
deriving DecidableEq

structure StoreNode where
  name : String
  attr : Option NodeAttr
  lclTranslation : Vec3 := (0, 0, 0)
  lclRotation : Vec3 := (0, 0, 0)
  lclScaling : Vec3 := (1, 1, 1)
  children : List Nat := []
deriving DecidableEq

/-- The opaque FBX scene: nodes addressed by unique id.  Nodes removed from
the tree stay in `nodes` (the SDK keeps them alive in the manager); the tree
structure is given by the `children` lists starting at `rootUid`. -/
structure Store where
  rootUid : Nat
  nodes : List (Nat × StoreNode)
  nextUid : Nat
deriving DecidableEq

/-- First-match association lookup (Python dictionaries have unique keys;
keeping the first match agrees with them on well-formed scenes). -/
def assocLookup (u : Nat) : List (Nat × StoreNode) → Option StoreNode
  | [] => none
  | (k, n) :: rest => if k = u then some n else assocLookup u rest

/-- Update the (first) entry with key `u` in place. -/
def assocModify (u : Nat) (f : StoreNode → StoreNode) :
    List (Nat × StoreNode) → List (Nat × StoreNode)
  | [] => []
  | (k, n) :: rest =>
    if k = u then (k, f n) :: rest else (k, n) :: assocModify u f rest

namespace Store

def lookupNode (s : Store) (u : Nat) : Option StoreNode :=
  assocLookup u s.nodes

def modifyNode (s : Store) (u : Nat) (f : StoreNode → StoreNode) : Store :=
  { s with nodes := assocModify u f s.nodes }

def childrenOf (s : Store) (u : Nat) : List Nat :=
  ((s.lookupNode u).map StoreNode.children).getD []

def nameOf (s : Store) (u : Nat) : String :=
  ((s.lookupNode u).map StoreNode.name).getD ""

def attrOf (s : Store) (u : Nat) : Option NodeAttr :=
  ((s.lookupNode u).map StoreNode.attr).getD none

/-- `node.GetParent()`: the (first) node whose children list contains `u`. -/
def parentOf (s : Store) (u : Nat) : Option Nat :=
  (s.nodes.find? (fun e => e.2.children.contains u)).map Prod.fst

/-- `parent.AddChild(child)`: append `c` to the children of `p`. -/
def addChild (s : Store) (p c : Nat) : Store :=
  s.modifyNode p (fun n => { n with children := n.children ++ [c] })

/-- `parent.RemoveChild(child)`: drop `c` from the children of `p`. -/
def removeChild (s : Store) (p c : Nat) : Store :=
  s.modifyNode p (fun n => { n with children := n.children.erase c })

def keys (s : Store) : List Nat := s.nodes.map Prod.fst

/-- Well-formedness of a scene: unique ids; every node is the child of at
most one node and occurs at most once in a children list; the root node has
no parent; fresh ids are really fresh. -/
def wf (s : Store) : Bool :=
  decide s.keys.Nodup
    && decide (s.nodes.flatMap (fun e => e.2.children)).Nodup
    && !(s.nodes.any (fun e => e.2.children.contains s.rootUid))
    && s.nodes.all (fun e => !(e.2.children.contains e.1))
    && s.nodes.all (fun e => e.1 < s.nextUid)

end Store

/-! ## Export diagnostics (`save_as.py`, `SceneExportDiagnostics`) -/

structure NodeSummary where
  name : String
  uid : Nat
deriving DecidableEq

structure CreationRecord where
  node : NodeSummary
  parent : Option NodeSummary
deriving DecidableEq

structure ReparentRecord where
  node : NodeSummary
  previous_parent : Option NodeSummary
  new_parent : Option NodeSummary
deriving DecidableEq

structure OrphanRecord where
  node : NodeSummary
  parent : Option NodeSummary
deriving DecidableEq

structure AttributeRecord where
  node : NodeSummary
  attribute_type : String
  attribute_class : String
deriving DecidableEq

structure TransformRecord where
  node : NodeSummary
  translation : Vec3
  rotation : Vec3
  scaling : Vec3
deriving DecidableEq

structure SceneExportDiagnostics where
  mode : String := "rebuild"
  reused_root_uid : Option Nat := none
  source_child_count : Nat := 0
  created_nodes : List CreationRecord := []
  reparented_nodes : List ReparentRecord := []
  removed_orphans : List OrphanRecord := []
  pruned_nodes : List NodeSummary := []
  attribute_updates : List AttributeRecord := []
  transform_updates : List TransformRecord := []
deriving DecidableEq

/-- `SceneExportDiagnostics._node_summary`. -/
def summaryOf (s : Store) (u : Nat) : NodeSummary :=
  { name := s.nameOf u, uid := u }

namespace SceneExportDiagnostics

def record_creation (d : SceneExportDiagnostics) (node : NodeSummary)
    (parent : Option NodeSummary) : SceneExportDiagnostics :=
  { d with created_nodes := d.created_nodes ++ [{ node := node, parent := parent }] }

def record_reparent (d : SceneExportDiagnostics) (node : NodeSummary)
    (previous new : Option NodeSummary) : SceneExportDiagnostics :=
  { d with reparented_nodes :=
      d.reparented_nodes ++ [{ node := node, previous_parent := previous, new_parent := new }] }

def record_orphan_removal (d : SceneExportDiagnostics) (node : NodeSummary)
    (parent : Option NodeSummary) : SceneExportDiagnostics :=
  { d with removed_orphans := d.removed_orphans ++ [{ node := node, parent := parent }] }

def record_pruned (d : SceneExportDiagnostics) (node : NodeSummary) : SceneExportDiagnostics :=
  { d with pruned_nodes := d.pruned_nodes ++ [node] }

def record_attribute (d : SceneExportDiagnostics) (node : NodeSummary)
    (attr_type attr_class : String) : SceneExportDiagnostics :=
  { d with attribute_updates :=
      d.attribute_updates ++ [{ node := node, attribute_type := attr_type, attribute_class := attr_class }] }

def record_transform (d : SceneExportDiagnostics) (node : NodeSummary)
    (translation rotation scaling : Vec3) : SceneExportDiagnostics :=
  { d with transform_updates :=
      d.transform_updates ++
        [{ node := node, translation := translation, rotation := rotation,
           scaling := scaling }] }

end SceneExportDiagnostics

/-! ## Attribute-type translation (`save_as.py`, `_apply_node_attribute`) -/

/-- The four canonical joint-role labels and the enum names they resolve
(`skeleton_labels` in `_apply_node_attribute`). -/
def skeleton_labels : List (String × String) :=
  [("Root", "eRoot"), ("Limb", "eLimb"), ("LimbNode", "eLimbNode"), ("Effector", "eEffector")]

/-- The `skeleton_types` dictionary: a label is present exactly when its enum
name resolves in the current store version (a failed `resolve_enum_value` is
skipped), and the Python `is not None` guard is folded into the resolver. -/
def skeleton_types (resolve : String → Option Nat) (label : String) : Option Nat :=
  (skeleton_labels.lookup label).bind resolve

/-- The attachment-level effect of `_apply_node_attribute` on the node's
current attribute (diagnostics recording is done by the caller `sync`). -/
def apply_node_attribute (resolve : String → Option Nat)
    (node_attribute : Option NodeAttr) (attr_type : String) : Option NodeAttr :=
  match skeleton_types resolve attr_type with
  | some role =>
    -- ensure a skeleton attribute exists, then set its skeleton type
    match node_attribute with
    | some (.skeleton _) => some (.skeleton role)
    | _ => some (.skeleton role)
  | none =>
    match node_attribute with
    | some (.skeleton r) =>
      if attr_type = "Node" then none else some (.skeleton r)
    | other => other

/-! ## Reconciliation (`save_as.py`, `_apply_scene_graph_changes`) -/

-- `_ensure_parent(parent_fbx, child)`; node identity is uid equality.
def ensure_parent (s : Store) (parentFbx child : Nat) : Store :=
  if child = parentFbx then s
  else
    match s.parentOf child with
    | some current => if current = parentFbx then s
        else (s.removeChild current child).addChild parentFbx child
    | none => s.addChild parentFbx child

/-- `_remove_orphaned_children(parent, desired_children)`: drop the children
of `parent` whose uid is not desired.  The Python loop walks the child list
from the last index down removing as it goes, which (for duplicate-free
child lists) keeps exactly the desired children and records the removals in
reversed child order. -/
def remove_orphaned_children (s : Store) (parent : Nat) (desired : List Nat)
    (d : SceneExportDiagnostics) : Store × SceneExportDiagnostics :=
  let cs := s.childrenOf parent
  let removed := (cs.filter (fun c => !desired.contains c)).reverse
  let s1 := s.modifyNode parent
    (fun n => { n with children := n.children.filter (fun c => desired.contains c) })
  let d1 := removed.foldl
    (fun dd c => dd.record_orphan_removal (summaryOf s c) (some (summaryOf s parent))) d
  (s1, d1)

/-- The body of the child-relocation loop inside `_prune_unused_nodes`:
`node.RemoveChild(child)` then `parent.AddChild(child)` and the reparent
diagnostic. -/
def pruneMoveStep (uid parent : Nat) (sd : Store × SceneExportDiagnostics)
    (c : Nat) : Store × SceneExportDiagnostics :=
  let s2 := (sd.1.removeChild uid c).addChild parent c
  (s2, sd.2.record_reparent (summaryOf s2 c) (some (summaryOf s2 uid))
         (some (summaryOf s2 parent)))

/-- One iteration of the loop body of `_prune_unused_nodes` for the entry
`uid` of the node index: skip the root and used nodes, skip nodes without a
parent, otherwise move every child up to the former parent (recording a
reparent each) and then detach the node itself (recording the prune). -/
def prune_step (rootUid : Nat) (used : List Nat)
    (acc : Store × SceneExportDiagnostics) (uid : Nat) : Store × SceneExportDiagnostics :=
  let s := acc.1
  let d := acc.2
  if uid = rootUid || used.contains uid then (s, d)
  else
    match s.parentOf uid with
    | none => (s, d)
    | some parent =>
      let cs := s.childrenOf uid
      let moved := cs.foldl (pruneMoveStep uid parent) (s, d)
      let d2 := moved.2.record_pruned (summaryOf moved.1 uid)
      (moved.1.removeChild parent uid, d2)

/-- `_prune_unused_nodes`: fold the loop body over the snapshot of the node
index taken when the pass starts. -/
def prune_unused_nodes (rootUid : Nat) (existing : List Nat) (used : List Nat)
    (s : Store) (d : SceneExportDiagnostics) : Store × SceneExportDiagnostics :=
  existing.foldl (prune_step rootUid used) (s, d)

-- `_map_scene_nodes(root)`: walk the store tree from `u` collecting the uid
-- index (pre-order) and the path index.  The Python recursion is unbounded;
-- the fuel argument is a modelling artifact and is called with more fuel
-- than the height of any tree-shaped scene.
def walkStore (s : Store) (fuel : Nat) : Nat → List Nat → List Nat × List (List Nat × Nat) :=
  Nat.rec (motive := fun _ => Nat → List Nat → List Nat × List (List Nat × Nat))
    (fun _ _ => ([], []))
    (fun _ ih u path =>
      let sub := (s.childrenOf u).enum.map (fun e => ih e.2 (path ++ [e.1]))
      (u :: (sub.map Prod.fst).flatten, (path, u) :: (sub.map Prod.snd).flatten))
    fuel

def map_scene_nodes (s : Store) : List Nat × List (List Nat × Nat) :=
  walkStore s (s.nodes.length + 1) s.rootUid []

/-- Mutable state threaded through `sync` (the dictionaries and sets the
Python closure captures).  `existing_nodes` keeps only the key set of the
uid index: the dictionary always maps a uid to the node bearing that uid. -/
structure SyncState where
  store : Store
  existing_nodes : List Nat
  existing_paths : List (List Nat × Nat)
  used_uids : List Nat
  diag : SceneExportDiagnostics

def insertKey (l : List Nat) (u : Nat) : List Nat :=
  if l.contains u then l else l ++ [u]

def pathsGet (l : List (List Nat × Nat)) (p : List Nat) : Option Nat :=
  (l.find? (fun e => e.1 = p)).map Prod.fst |>.map (fun _ => 0)

def pathsGetUid (l : List (List Nat × Nat)) (p : List Nat) : Option Nat :=
  (l.find? (fun e => decide (e.1 = p))).map Prod.snd

def pathsInsertIfAbsent (l : List (List Nat × Nat)) (p : List Nat) (u : Nat) :
    List (List Nat × Nat) :=
  if (l.find? (fun e => decide (e.1 = p))).isSome then l else l ++ [(p, u)]

-- The inner `sync(node_model, parent_fbx)` closure of
-- `_apply_scene_graph_changes`, in state-passing form.  It returns the
-- updated state, the model node with its `uid` field written back, and the
-- uid of the store node the model node was matched with or created as.
-- `syncResolveNode` is the head of the loop body: resolving a store node by
-- uid / root adoption / path fallback, creating one when nothing resolves,
-- or ensuring the parent of a reused one, with the creation and reparent
-- diagnostics.  `syncApply` is the bookkeeping tail shared by both
-- branches: index/path/`used_uids` insertion and the attribute and
-- transform application with their unconditional diagnostics records.

/-- Resolution part of `sync`: returns the state after the branch and the
uid of the resolved or created store node. -/
def syncResolveNode (st : SyncState) (mname : String) (mUid mParentUid : Option Nat)
    (mPath : List Nat) (parentFbx : Nat) : SyncState × Nat :=
  let rootUid := st.store.rootUid
  -- fbx_node = existing_nodes.get(node_model.uid) if node_model.uid is not None else None
  let found0 : Option Nat :=
    match mUid with
    | some u => if st.existing_nodes.contains u then some u else none
    | none => none
  -- the root-adoption and path-fallback branches fix the resolved node and
  -- write the adopted uid back into the model
  let resolved : Option Nat :=
    match found0 with
    | some u => some u
    | none =>
      if mParentUid = none && parentFbx = rootUid then some rootUid
      else
        match mUid with
        | some _ => pathsGetUid st.existing_paths mPath
        | none => none
  match resolved with
  | none =>
    -- creation branch: fbx.FbxNode.Create + parent_fbx.AddChild
    let nodeName := if mname = "" then "Node" else mname
    let newUid := st.store.nextUid
    let store1 : Store :=
      { st.store with
          nodes := st.store.nodes ++ [(newUid, { name := nodeName, attr := none })],
          nextUid := newUid + 1 }
    let store2 := store1.addChild parentFbx newUid
    let ex1 := insertKey st.existing_nodes newUid
    let d1 := st.diag.record_creation (summaryOf store2 newUid)
      (some (summaryOf store2 parentFbx))
    ({ st with store := store2, existing_nodes := ex1, diag := d1 }, newUid)
  | some u =>
    -- reuse branch: _ensure_parent plus the reparent diagnostic
    let previousParent := st.store.parentOf u
    let store1 := ensure_parent st.store parentFbx u
    let d1 :=
      if previousParent ≠ some parentFbx then
        st.diag.record_reparent (summaryOf store1 u)
          (previousParent.map (summaryOf store1)) (some (summaryOf store1 parentFbx))
      else st.diag
    ({ st with store := store1, diag := d1 }, u)

/-- Bookkeeping and attribute/transform part of `sync`, between node
resolution and the recursion into the children. -/
def syncApply (resolve : String → Option Nat) (st : SyncState)
    (mAttrType mAttrClass : String) (mT mR mS : Vec3) (mPath : List Nat)
    (u : Nat) : SyncState :=
  let ex2 := insertKey st.existing_nodes u
  let paths2 := pathsInsertIfAbsent st.existing_paths mPath u
  let used2 := insertKey st.used_uids u
  -- _apply_node_attribute(scene, fbx_node, ...)
  let newAttr := apply_node_attribute resolve (st.store.attrOf u) mAttrType
  let store3 := st.store.modifyNode u (fun n => { n with attr := newAttr })
  let d2 := st.diag.record_attribute (summaryOf store3 u) mAttrType mAttrClass
  -- _apply_node_transform(fbx_node, node_model)
  let store4 := store3.modifyNode u (fun n =>
    { n with lclTranslation := mT, lclRotation := mR, lclScaling := mS })
  let d3 := d2.record_transform (summaryOf store4 u) mT mR mS
  { store := store4, existing_nodes := ex2, existing_paths := paths2,
    used_uids := used2, diag := d3 }

mutual

def sync (resolve : String → Option Nat) (st : SyncState) (m : SceneNode)
    (parentFbx : Nat) : SyncState × SceneNode × Nat :=
  match m with
  | .mk mname mAttrType mAttrClass mT mR mS mUid mParentUid mPath mChildren =>
    let branch := syncResolveNode st mname mUid mParentUid mPath parentFbx
    let u := branch.2
    let st3 := syncApply resolve branch.1 mAttrType mAttrClass mT mR mS mPath u
    let rec3 := syncChildren resolve st3 mChildren u
    let st4 := rec3.1
    let afterOrphans := remove_orphaned_children st4.store u rec3.2.2 st4.diag
    ({ st4 with store := afterOrphans.1, diag := afterOrphans.2 },
     .mk mname mAttrType mAttrClass mT mR mS (some u) mParentUid mPath rec3.2.1, u)

def syncChildren (resolve : String → Option Nat) (st : SyncState)
    (cs : List SceneNode) (parentFbx : Nat) : SyncState × List SceneNode × List Nat :=
  match cs with
  | [] => (st, [], [])
  | c :: rest =>
    let r1 := sync resolve st c parentFbx
    let r2 := syncChildren resolve r1.1 rest parentFbx
    (r2.1, r1.2.1 :: r2.2.1, r1.2.2 :: r2.2.2)

end

structure ApplyResult where
  store : Store
  model : SceneNode
  diag : SceneExportDiagnostics

/-- `_apply_scene_graph_changes(scene, scene_graph, diagnostics)`. -/
def apply_scene_graph_changes (resolve : String → Option Nat) (s : Store)
    (m : SceneNode) (d : SceneExportDiagnostics) : ApplyResult :=
  let maps := map_scene_nodes s
  let st0 : SyncState :=
    { store := s, existing_nodes := maps.1, existing_paths := maps.2,
      used_uids := [], diag := d }
  let r := sync resolve st0 m s.rootUid
  let pruned := prune_unused_nodes s.rootUid r.1.existing_nodes r.1.used_uids
    r.1.store r.1.diag
  { store := pruned.1, model := r.2.1, diag := pruned.2 }

/-! ## The save-as orchestrator prefix (`save_as.py`, `save_scene_graph_as`)

The function is modelled up to its branch point.  The distinct-path check and
the copy fast path run before any FBX SDK object exists; the rebuild branch
(manager creation, scene load, reconciliation, validation, export and
round-trip check) starts with `sdk.create_manager()` and is represented by
the `.rebuild` outcome carrying the effects issued up to that first SDK
call.  `os.path.abspath` is abstracted as the `abspath` parameter; the
filesystem is a map from path strings to optional byte contents and
`shutil.copy2` copies the source contents to the destination. -/

inductive FsEffect : Type where
  | mkdirParent (path : String)
  | copyFile (source dest : String)
  | createManager
deriving DecidableEq

inductive SaveOutcome : Type where
  | rejected (message : String)
  | copied (diag : SceneExportDiagnostics)
  | rebuild (diag : SceneExportDiagnostics)
deriving DecidableEq

def save_scene_graph_as (abspath : String → String)
    (source_path target_path : String) (scene_graph : Option SceneNode)
    (force_rebuild : Bool) (diagnostics : Option SceneExportDiagnostics) :
    SaveOutcome × List FsEffect :=
  if abspath source_path = abspath target_path then
    (.rejected "The destination path must be different from the source path.", [])
  else
    let d := diagnostics.getD {}
    if scene_graph.isNone && !force_rebuild then
      (.copied { d with mode := "copy" },
       [.mkdirParent target_path, .copyFile source_path target_path])
    else
      (.rebuild d, [.mkdirParent target_path, .createManager])

/-- Replay the file-content effects on a filesystem (`_copy_scene_file` via
`shutil.copy2` makes the destination contents equal the source contents). -/
def applyEffects (fs : String → Option (List Nat)) :
    List FsEffect → String → Option (List Nat)
  | [] => fs
  | .copyFile src dst :: rest =>
    applyEffects (fun p => if p = dst then fs src else fs p) rest
  | _ :: rest => applyEffects fs rest

/-- `os.path.abspath` for a plain relative file name (no separators or dot
segments) under working directory `cwd`: it joins and normalises but keeps
character case. -/
def abspathAt (cwd : String) (p : String) : String := cwd ++ "/" ++ p

/-! ## Scene metrics (`validation.py`, `SceneMetrics.diff`) -/

structure MeshMetrics where
  control_points : Int
  polygon_count : Int
  layer_elements : List (String × Int)
deriving DecidableEq

structure SceneMetrics where
  node_count : Int := 0
  mesh_metrics : List (String × MeshMetrics) := []
  material_count : Int := 0
  texture_count : Int := 0
  skin_cluster_count : Int := 0
  bind_pose_count : Int := 0
  anim_stack_count : Int := 0
  anim_curve_count : Int := 0
deriving DecidableEq

/-- Values carried by a diff entry: a plain count, a whole mesh snapshot
(`rhs.__dict__` or `None`), or an optional per-layer count. -/
inductive MetricValue : Type where
  | num (value : Int)
  | meshSnapshot (value : Option MeshMetrics)
  | layerCount (value : Option Int)
deriving DecidableEq

structure DiffEntry where
  metric : String
  expected : MetricValue
  actual : MetricValue
deriving DecidableEq

/-- One `record(label, other.x, self.x)` call guarded by `self.x != other.x`. -/
def scalarDiff (label : String) (selfVal otherVal : Int) : List DiffEntry :=
  if selfVal ≠ otherVal then [⟨label, .num otherVal, .num selfVal⟩] else []

-- `sorted(...)` on a duplicate-free list of strings (insertion sort).
def insertSorted (x : String) : List String → List String
  | [] => [x]
  | y :: ys => if x < y then x :: y :: ys else y :: insertSorted x ys

def sortStrings : List String → List String :=
  List.foldr insertSorted []

/-- `sorted(set(a) | set(b))`. -/
def sortedKeyUnion (a b : List String) : List String :=
  sortStrings ((a ++ b).dedup)

def SceneMetrics.meshKeys (m : SceneMetrics) : List String :=
  m.mesh_metrics.map Prod.fst

/-- The body of the `for layer_key in sorted(layer_keys)` loop of
`SceneMetrics.diff`. -/
def layerKeyDiff (key : String) (lhs rhs : MeshMetrics) (layerKey : String) :
    List DiffEntry :=
  if lhs.layer_elements.lookup layerKey ≠ rhs.layer_elements.lookup layerKey then
    [⟨"mesh:" ++ key ++ ":layer:" ++ layerKey,
      .layerCount (rhs.layer_elements.lookup layerKey),
      .layerCount (lhs.layer_elements.lookup layerKey)⟩]
  else []

/-- The body of the `for key in sorted(mesh_keys)` loop of
`SceneMetrics.diff`. -/
def meshKeyDiff (a b : SceneMetrics) (key : String) : List DiffEntry :=
  match a.mesh_metrics.lookup key, b.mesh_metrics.lookup key with
  | none, rhs => [⟨"mesh:" ++ key, .meshSnapshot rhs, .meshSnapshot none⟩]
  | some lhs, none => [⟨"mesh:" ++ key, .meshSnapshot none, .meshSnapshot (some lhs)⟩]
  | some lhs, some rhs =>
    (if lhs.control_points ≠ rhs.control_points then
        [⟨"mesh:" ++ key ++ ":control_points", .num rhs.control_points,
          .num lhs.control_points⟩]
      else []) ++
    (if lhs.polygon_count ≠ rhs.polygon_count then
        [⟨"mesh:" ++ key ++ ":polygon_count", .num rhs.polygon_count,
          .num lhs.polygon_count⟩]
      else []) ++
    (sortedKeyUnion (lhs.layer_elements.map Prod.fst)
        (rhs.layer_elements.map Prod.fst)).flatMap (layerKeyDiff key lhs rhs)

/-- `SceneMetrics.diff(self, other)`: the sequence of `record` calls, in
order. -/
def SceneMetrics.diff (a b : SceneMetrics) : List DiffEntry :=
  scalarDiff "node_count" a.node_count b.node_count ++
  scalarDiff "material_count" a.material_count b.material_count ++
  scalarDiff "texture_count" a.texture_count b.texture_count ++
  scalarDiff "skin_cluster_count" a.skin_cluster_count b.skin_cluster_count ++
  scalarDiff "bind_pose_count" a.bind_pose_count b.bind_pose_count ++
  scalarDiff "anim_stack_count" a.anim_stack_count b.anim_stack_count ++
  scalarDiff "anim_curve_count" a.anim_curve_count b.anim_curve_count ++
  (sortedKeyUnion a.meshKeys b.meshKeys).flatMap (meshKeyDiff a b)

/-! ## The validation-side scene and AutoRepair (`validation.py`)

The validator and repairer read the scene through node attributes, skin
deformers, clusters and poses.  `EvaluateGlobalTransform()` is opaque to the
code under verification, so every node carries its current evaluated world
transform as an opaque payload, and a cluster carries the world transform of
its linked joint (`cluster.GetLink().EvaluateGlobalTransform()`), `none`
when there is no link. -/

structure Cluster where
  transform_matrix : Option Int
  transform_link_matrix : Option Int
  link_world : Option Int
deriving DecidableEq

structure Skin where
  clusters : List Cluster
deriving DecidableEq

inductive VAttr : Type where
  | mesh (skins : List Skin)
  | skeletonAttr
  | noAttr
deriving DecidableEq

inductive VNode : Type where
  | mk (name : String) (world : Int) (attr : VAttr) (children : List VNode)

namespace VNode

def name : VNode → String
  | .mk n _ _ _ => n

def world : VNode → Int
  | .mk _ w _ _ => w

def attr : VNode → VAttr
  | .mk _ _ a _ => a

def children : VNode → List VNode
  | .mk _ _ _ c => c

-- `iter_nodes(root)`: pre-order traversal used by the validators, the
-- repairer and the metrics pass.
mutual

def iterNodes : VNode → List VNode
  | .mk n w a cs => .mk n w a cs :: iterNodesList cs

def iterNodesList : List VNode → List VNode
  | [] => []
  | c :: cs => iterNodes c ++ iterNodesList cs

end

def getRoute : VNode → List Nat → Option VNode
  | n, [] => some n
  | n, i :: rest =>
    match n.children.get? i with
    | some c => getRoute c rest
    | none => none

def updateRoute (f : VNode → VNode) : VNode → List Nat → VNode
  | n, [] => f n
  | .mk nm w a cs, i :: rest =>
    .mk nm w a (cs.mapIdx (fun j c => if j = i then updateRoute f c rest else c))

/-- All cluster bind matrices of the tree, in pre-order (a projection used
to observe cluster repairs). -/
def clusterSnapshots (n : VNode) : List (Option Int × Option Int) :=
  n.iterNodes.flatMap (fun v =>
    match v.attr with
    | .mesh skins => skins.flatMap (fun sk =>
        sk.clusters.map (fun cl => (cl.transform_matrix, cl.transform_link_matrix)))
    | _ => [])

end VNode

/-- `_node_path(node)`: slash-joined names from the scene root down to the
node (the climb through `GetParent` produces the reversed list), with empty
names rendered as `<unnamed>`. -/
def node_path (names : List String) : String :=
  "/" ++ String.intercalate "/" (names.map (fun n => if n = "" then "<unnamed>" else n))

-- `path.split("/")` on the character list (structural so that concrete
-- paths evaluate): split at every separator, keeping empty pieces.
def splitChars (sep : Char) : List Char → List Char → List String
  | [], acc => [String.mk acc.reverse]
  | c :: rest, acc =>
    if c = sep then String.mk acc.reverse :: splitChars sep rest []
    else splitChars sep rest (c :: acc)

def splitPathSegments (path : String) : List String :=
  (splitChars '/' path.data []).filter (fun seg => seg ≠ "")

-- `_find_node_by_path(root, path)`: the result is reported as the route of
-- child indices leading to the found node (the Python function returns the
-- node object itself).  Note that the full segment list — whose first
-- segment is the root's own name when the path was produced by
-- `_node_path` — is matched against the root's children.
mutual

def matchSegments (n : VNode) (segs : List String) : Option (List Nat) :=
  match n, segs with
  | _, [] => some []
  | .mk nm _ _ cs, seg :: rest =>
    if nm ≠ seg then none
    else if rest = [] then some []
    else matchChildrenSegments cs rest 0
termination_by structural n

def matchChildrenSegments (cs : List VNode) (segs : List String) (idx : Nat) :
    Option (List Nat) :=
  match cs with
  | [] => none
  | c :: rest =>
    match matchSegments c segs with
    | some route => some (idx :: route)
    | none => matchChildrenSegments rest segs (idx + 1)
termination_by structural cs

end

def find_node_by_path (root : VNode) (path : String) : Option (List Nat) :=
  let target := splitPathSegments path
  if target = [] then some []
  else matchChildrenSegments root.children target 0

/-! ### AutoRepair, skin section (`validation.py` lines 870-913)

The globals section of `AutoRepair` (lines 769-859) only reads and writes
the global settings and the `globals` category and is independent of the
skin state; the skin section below is embedded complete.  A validation
issue, a pose and a repair-log entry are embedded with the fields the skin
section touches. -/

structure SkinIssue where
  severity : String := "FAIL"
  message : String := ""
  code : String
  object_path : Option String := none
  fix_applied : Option String := none
deriving DecidableEq

structure Pose where
  name : String
  is_bind_pose : Bool
  entries : List (String × Int)
deriving DecidableEq

structure RepairEntry where
  object : String
  action : String
deriving DecidableEq

def clusterFixMessage : String := "Skin cluster matrices rebuilt from current pose."

def bindPoseFixMessage : String := "Bind pose reconstructed."

def bindPoseCodes : List String := ["skin.bind_pose_missing", "skin.bind_pose_empty"]

def clusterCodes : List String := ["skin.cluster_matrix", "skin.cluster_link_matrix"]

/-- Rebuild the cluster matrices of every skin of a mesh node: the transform
matrix from the mesh's current world transform (only for
`skin.cluster_matrix` issues), and the link matrix from the linked joint's
current world transform whenever a link exists. -/
def repairClusters (code : String) (n : VNode) : VNode :=
  match n with
  | .mk nm w (.mesh skins) cs =>
    .mk nm w
      (.mesh (skins.map (fun sk =>
        { clusters := sk.clusters.map (fun cl =>
            let cl1 := if code = "skin.cluster_matrix" then
                { cl with transform_matrix := some w }
              else cl
            match cl1.link_world with
            | some lw => { cl1 with transform_link_matrix := some lw }
            | none => cl1) })))
      cs
  | other => other

/-- One iteration of the `for issue in skin_category.issues` loop: cluster
issues look the node up by `object_path` and rebuild its matrices (silently
skipped when the lookup fails or the node is not a mesh); bind-pose issues
only raise the `needs_bind_pose` flag. -/
def repairSkinIssueStep (acc : VNode × List SkinIssue × List RepairEntry × Bool)
    (issue : SkinIssue) : VNode × List SkinIssue × List RepairEntry × Bool :=
  let root := acc.1
  let done := acc.2.1
  let repairs := acc.2.2.1
  let needs := acc.2.2.2
  let path := issue.object_path.getD "<mesh>"
  if issue.code ∈ clusterCodes then
    match find_node_by_path root path with
    | none => (root, done ++ [issue], repairs, needs)
    | some route =>
      match root.getRoute route with
      | none => (root, done ++ [issue], repairs, needs)
      | some node =>
        match node.attr with
        | .mesh _ =>
          (root.updateRoute (repairClusters issue.code) route,
           done ++ [{ issue with fix_applied := some clusterFixMessage }],
           repairs ++ [⟨path, clusterFixMessage⟩], needs)
        | _ => (root, done ++ [issue], repairs, needs)
  else if issue.code ∈ bindPoseCodes then
    (root, done ++ [issue], repairs, true)
  else
    (root, done ++ [issue], repairs, needs)

/-- The skin section of `AutoRepair`: the issue loop, then — when some issue
carried a bind-pose code — the synthesis of exactly one new bind pose
holding every node's current world transform, one repair-log entry, and the
`fix_applied` marks on every bind-pose-coded issue. -/
def auto_repair_skin (root : VNode) (issues : List SkinIssue) (poses : List Pose)
    (repairs : List RepairEntry) :
    VNode × List SkinIssue × List Pose × List RepairEntry :=
  let phase1 := issues.foldl repairSkinIssueStep (root, [], repairs, false)
  let root1 := phase1.1
  let issues1 := phase1.2.1
  let repairs1 := phase1.2.2.1
  let needs := phase1.2.2.2
  if needs then
    let pose : Pose :=
      { name := "AutoBindPose", is_bind_pose := true,
        entries := root1.iterNodes.map (fun n => (n.name, n.world)) }
    let issues2 := issues1.map (fun i =>
      if i.code ∈ bindPoseCodes then { i with fix_applied := some bindPoseFixMessage } else i)
    (root1, issues2, poses ++ [pose], repairs1 ++ [⟨"<poses>", bindPoseFixMessage⟩])
  else
    (root1, issues1, poses, repairs1)

/-! ## Structural matching between a model tree and a store

`matched s m` captures the hypothesis of the spec sentence "every node has a
uid resolvable in the store's uid index and the structure (parent/child
relationships and node set) equals the store's": the model root carries the
store root's uid and, recursively, every model node's uid looks up a store
node whose children list is exactly the uid list of the model children. -/

mutual

def matchesFrom (s : Store) (m : SceneNode) : Bool :=
  match m with
  | .mk _ _ _ _ _ _ mUid _ _ mChildren =>
    (match mUid with
     | some u =>
       match s.lookupNode u with
       | some sn =>
         decide (sn.children = mChildren.map SceneNode.uidD)
           && mChildren.all (fun c => c.uid.isSome)
       | none => false
     | none => false)
      && matchesFromList s mChildren

def matchesFromList (s : Store) : List SceneNode → Bool
  | [] => true
  | c :: cs => matchesFrom s c && matchesFromList s cs

end

def matched (s : Store) (m : SceneNode) : Bool :=
  (m.uid = some s.rootUid : Bool) && matchesFrom s m

/-- The structural projection of a store: unique ids and children lists.
`parentOf`, `childrenOf` and the tree walks only depend on it. -/
def structProj (s : Store) : Nat × List (Nat × List Nat) :=
  (s.rootUid, s.nodes.map (fun e => (e.1, e.2.children)))

/-- The name projection of a store (diagnostics summaries depend on it). -/
def namesProj (s : Store) : List (Nat × String) :=
  s.nodes.map (fun e => (e.1, e.2.name))

/-- Two stores with the same ids, tree structure, node names and uid
counter; they may differ in attributes and local transforms.  A
reconciliation run over an already-matching model changes the store only
within this relation. -/
def StructLike (s t : Store) : Prop :=
  structProj t = structProj s ∧ namesProj t = namesProj s ∧ t.nextUid = s.nextUid

/-- The diagnostics entry that a reconciliation run records for the scene
root: `previous_parent` is `None` because `GetParent()` of the root is null,
which never equals the root node, so the guard in `sync` fires. -/
def rootReparentRecord (s : Store) : ReparentRecord :=
  { node := summaryOf s s.rootUid, previous_parent := none,
    new_parent := some (summaryOf s s.rootUid) }

/-- The attribute-update entries a reconciliation run appends: one per model
node, in pre-order, recorded unconditionally by `_apply_node_attribute`. -/
def expectedAttrRecords (s : Store) (m : SceneNode) : List AttributeRecord :=
  m.walk.map (fun n =>
    { node := summaryOf s n.uidD, attribute_type := n.attribute_type,
      attribute_class := n.attribute_class })

/-- The transform-update entries a reconciliation run appends: one per model
node, in pre-order, recorded unconditionally by `_apply_node_transform`. -/
def expectedTransformRecords (s : Store) (m : SceneNode) : List TransformRecord :=
  m.walk.map (fun n =>
    { node := summaryOf s n.uidD, translation := n.translation,
      rotation := n.rotation, scaling := n.scaling })

/-! ## Concrete scenes used by counterexamples and witnesses -/

/-- A one-node store whose root (uid 1) already agrees with `cexModel`. -/
def cexStore : Store :=
  { rootUid := 1, nodes := [(1, { name := "RootNode", attr := none })], nextUid := 2 }

/-- A single-node model tree matched with `cexStore`, with identical
transform and no attribute change. -/
def cexModel : SceneNode :=
  .mk "RootNode" "Null" "FbxNull" (0, 0, 0) (0, 0, 0) (1, 1, 1) (some 1) none [] []

/-- `cexModel` with its uid unset (exercising the root-adoption branch). -/
def cexModelNoUid : SceneNode :=
  .mk "RootNode" "Null" "FbxNull" (0, 0, 0) (0, 0, 0) (1, 1, 1) none none [] []

def cexRun1 : ApplyResult := apply_scene_graph_changes (fun _ => none) cexStore cexModel {}

def cexRun2 : ApplyResult :=
  apply_scene_graph_changes (fun _ => none) cexRun1.store cexRun1.model cexRun1.diag

/-- A store for the C1 witness: root 1 with used child 2; node 3 (to be
pruned) is a child of 2 and has children 4 and 5. -/
def pruneStore : Store :=
  { rootUid := 1,
    nodes :=
      [(1, { name := "RootNode", attr := none, children := [2] }),
       (2, { name := "Keep", attr := none, children := [3] }),
       (3, { name := "Gone", attr := none, children := [4, 5] }),
       (4, { name := "A", attr := none }),
       (5, { name := "B", attr := none })],
    nextUid := 6 }

/-- The mesh node of the C7 failing scene. -/
def c7Mesh : VNode := .mk "Mesh" 5 (.mesh [⟨[⟨none, none, some 3⟩]⟩]) []

/-- The C7 failing scene: a root named "RootNode" with a single skinned mesh
child whose cluster is missing both bind matrices. -/
def c7Root : VNode := .mk "RootNode" 7 .noAttr [c7Mesh]

/-- The skin.cluster_matrix FAIL issue the validator produces for `c7Mesh`:
its `object_path` is `_node_path(mesh_node)`, whose first segment is the
scene root's name. -/
def c7Issue : SkinIssue :=
  { severity := "FAIL", message := "Skin cluster missing transform matrix.",
    code := "skin.cluster_matrix", object_path := some (node_path ["RootNode", "Mesh"]) }

/-! # Claims -/

/-! ## C4 — the copy fast path -/

/-- C4: with `scene_graph = None`, `force_rebuild` false and distinct
normalized paths, `save_scene_graph_as` takes the copy fast path: the mode
becomes "copy", the only effects are the parent-directory creation and the
verbatim file copy (so the destination contents become byte-for-byte equal
to the source contents), and no manager/store is created, no scene loaded,
nothing validated or exported. -/
theorem save_copy_fast_path (abspath : String → String)
    (fs : String → Option (List Nat)) (src dst : String)
    (dIn : Option SceneExportDiagnostics)
    (h : abspath src ≠ abspath dst) :
    save_scene_graph_as abspath src dst none false dIn =
      (.copied { dIn.getD {} with mode := "copy" },
       [.mkdirParent dst, .copyFile src dst]) ∧
    applyEffects fs (save_scene_graph_as abspath src dst none false dIn).2 dst = fs src := by
  constructor
  · simp [save_scene_graph_as, h]
  · simp [save_scene_graph_as, h, applyEffects]

theorem save_copy_fast_path_witness :
    save_scene_graph_as (abspathAt "/work") "scene.fbx" "out.fbx" none false none =
      (.copied { mode := "copy" }, [.mkdirParent "out.fbx", .copyFile "scene.fbx" "out.fbx"]) ∧
    applyEffects (fun p => if p = "scene.fbx" then some [7, 7, 7] else none)
      (save_scene_graph_as (abspathAt "/work") "scene.fbx" "out.fbx" none false none).2
      "out.fbx" = some [7, 7, 7] := by
  have h := save_copy_fast_path (abspathAt "/work")
    (fun p => if p = "scene.fbx" then some [7, 7, 7] else none)
    "scene.fbx" "out.fbx" none (by decide)
  simpa using h

/-! ## C5 — rejection of equal paths -/

/-- ASCII case folding, modelling the identification of paths made by a
case-insensitive filesystem. -/
def lowerStr (s : String) : String :=
  ⟨s.data.map (fun c => if 65 ≤ c.toNat ∧ c.toNat ≤ 90 then Char.ofNat (c.toNat + 32) else c)⟩

/-- C5 counterexample: two paths that denote the same file on a
case-insensitive filesystem (they differ only in letter case) are not
rejected, because `os.path.abspath` is case-preserving: the function
proceeds and takes the copy branch instead of raising before any file
access.  `abspathAt "/work"` is `os.path.abspath` for plain relative file
names under working directory `/work`. -/
theorem save_rejects_counterexample :
    lowerStr "A.fbx" = lowerStr "a.fbx" ∧
    "A.fbx" ≠ "a.fbx" ∧
    save_scene_graph_as (abspathAt "/work") "A.fbx" "a.fbx" none false none =
      (.copied { mode := "copy" }, [.mkdirParent "a.fbx", .copyFile "A.fbx" "a.fbx"]) := by
  refine ⟨by decide, by decide, by decide⟩

/-- C5 (amended): the two paths are normalized by `os.path.abspath` before
being compared, and whenever the normalized strings are equal the function
raises the save error with an empty effect trace — before any store is
created or any file is opened.  (Paths that denote the same file but differ
as normalized strings, e.g. by case on a case-insensitive filesystem, are
not rejected.) -/
theorem save_rejects_equal_normalized (abspath : String → String)
    (src dst : String) (g : Option SceneNode) (f : Bool)
    (dIn : Option SceneExportDiagnostics)
    (h : abspath src = abspath dst) :
    save_scene_graph_as abspath src dst g f dIn =
      (.rejected "The destination path must be different from the source path.", []) := by
  simp [save_scene_graph_as, h]

theorem save_rejects_equal_normalized_witness :
    save_scene_graph_as (abspathAt "/work") "x.fbx" "x.fbx" none false none =
      (.rejected "The destination path must be different from the source path.", []) :=
  save_rejects_equal_normalized (abspathAt "/work") "x.fbx" "x.fbx" none false none rfl

/-! ## C9 — attribute-type translation -/

/-- C9: applying one of the four canonical joint-role labels whose enum name
resolves makes the node end with a skeleton attribute carrying that role
(created when absent, retyped when present); applying the literal label
"Node" to a node with a skeleton attribute clears the attribute; any other
label — including a canonical label whose enum value does not resolve in
the current store version, which is skipped without error — leaves the
attachment unchanged. -/
theorem apply_node_attribute_translation (resolve : String → Option Nat)
    (node_attribute : Option NodeAttr) (attr_type : String) :
    (∀ enumName role, skeleton_labels.lookup attr_type = some enumName →
        resolve enumName = some role →
        apply_node_attribute resolve node_attribute attr_type = some (.skeleton role)) ∧
    (∀ r, attr_type = "Node" → node_attribute = some (.skeleton r) →
        apply_node_attribute resolve node_attribute attr_type = none) ∧
    (skeleton_types resolve attr_type = none → attr_type ≠ "Node" →
        apply_node_attribute resolve node_attribute attr_type = node_attribute) ∧
    (skeleton_types resolve attr_type = none →
        (∀ r, node_attribute ≠ some (.skeleton r)) →
        apply_node_attribute resolve node_attribute attr_type = node_attribute) ∧
    (∀ enumName, skeleton_labels.lookup attr_type = some enumName →
        resolve enumName = none →
        apply_node_attribute resolve node_attribute attr_type = node_attribute) := by
  refine ⟨?_, ?_, ?_, ?_, ?_⟩
  · intro enumName role hl hr
    have ht : skeleton_types resolve attr_type = some role := by
      simp [skeleton_types, hl, hr]
    unfold apply_node_attribute
    rw [ht]
    cases node_attribute with
    | none => rfl
    | some a => cases a <;> rfl
  · intro r hN ha
    subst hN
    have hl0 : skeleton_labels.lookup "Node" = none := by decide
    have ht : skeleton_types resolve "Node" = none := by
      simp [skeleton_types, hl0]
    unfold apply_node_attribute
    rw [ht, ha]
    simp
  · intro ht hN
    unfold apply_node_attribute
    rw [ht]
    cases node_attribute with
    | none => rfl
    | some a =>
      cases a with
      | skeleton r => simp [hN]
      | mesh => rfl
      | otherAttr t => rfl
  · intro ht hns
    unfold apply_node_attribute
    rw [ht]
    cases node_attribute with
    | none => rfl
    | some a =>
      cases a with
      | skeleton r => exact absurd rfl (hns r)
      | mesh => rfl
      | otherAttr t => rfl
  · intro enumName hl hr
    have ht : skeleton_types resolve attr_type = none := by
      simp [skeleton_types, hl, hr]
    have hne : attr_type ≠ "Node" := by
      intro he
      subst he
      have hl0 : skeleton_labels.lookup "Node" = none := by decide
      rw [hl0] at hl
      exact Option.noConfusion hl
    unfold apply_node_attribute
    rw [ht]
    cases node_attribute with
    | none => rfl
    | some a =>
      cases a with
      | skeleton r => simp [hne]
      | mesh => rfl
      | otherAttr t => rfl

theorem apply_node_attribute_translation_witness :
    (apply_node_attribute (fun n => if n = "eLimbNode" then some 4 else none)
        (some .mesh) "LimbNode" = some (.skeleton 4)) ∧
    (apply_node_attribute (fun n => if n = "eLimbNode" then some 4 else none)
        (some (.skeleton 2)) "Node" = none) ∧
    (apply_node_attribute (fun n => if n = "eLimbNode" then some 4 else none)
        (some (.skeleton 2)) "Root" = some (.skeleton 2)) := by
  obtain ⟨h1, h2, h3, -, h5⟩ := apply_node_attribute_translation
    (fun n => if n = "eLimbNode" then some 4 else none) (some .mesh) "LimbNode"
  obtain ⟨-, h2b, -, -, -⟩ := apply_node_attribute_translation
    (fun n => if n = "eLimbNode" then some 4 else none) (some (.skeleton 2)) "Node"
  obtain ⟨-, -, -, -, h5c⟩ := apply_node_attribute_translation
    (fun n => if n = "eLimbNode" then some 4 else none) (some (.skeleton 2)) "Root"
  refine ⟨h1 "eLimbNode" 4 (by decide) (by decide), ?_, ?_⟩
  · exact h2b 2 rfl rfl
  · exact h5c "eRoot" (by decide) (by decide)

/-! ## Store toolkit lemmas -/

theorem assocLookup_modify (u v : Nat) (f : StoreNode → StoreNode) :
    ∀ l : List (Nat × StoreNode),
      assocLookup v (assocModify u f l) =
        if v = u then (assocLookup u l).map f else assocLookup v l := by
  intro l
  induction l with
  | nil => simp [assocLookup, assocModify]
  | cons e rest ih =>
    obtain ⟨k, n⟩ := e
    by_cases hk : k = u
    · subst hk
      by_cases hkv : k = v
      · subst hkv
        simp [assocLookup, assocModify]
      · have hvk : v ≠ k := fun h => hkv h.symm
        simp [assocLookup, assocModify, hkv, hvk]
    · by_cases hkv : k = v
      · subst hkv
        have hvu : k ≠ u := hk
        simp [assocLookup, assocModify, hk, hvu]
      · simp [assocLookup, assocModify, hk, hkv, ih]

theorem assocModify_keys (u : Nat) (f : StoreNode → StoreNode) :
    ∀ l : List (Nat × StoreNode),
      (assocModify u f l).map Prod.fst = l.map Prod.fst := by
  intro l
  induction l with
  | nil => rfl
  | cons e rest ih =>
    obtain ⟨k, n⟩ := e
    by_cases hk : k = u <;> simp [assocModify, hk, ih]

theorem assocLookup_mem {u : Nat} {n : StoreNode} :
    ∀ {l : List (Nat × StoreNode)}, assocLookup u l = some n → (u, n) ∈ l := by
  intro l
  induction l with
  | nil => intro h; simp [assocLookup] at h
  | cons e rest ih =>
    obtain ⟨k, m⟩ := e
    intro h
    by_cases hk : k = u
    · subst hk
      simp [assocLookup] at h
      subst h
      exact List.mem_cons_self _ _
    · simp [assocLookup, hk] at h
      exact List.mem_cons_of_mem _ (ih h)

theorem assocLookup_of_mem {l : List (Nat × StoreNode)}
    (hnd : (l.map Prod.fst).Nodup) {e : Nat × StoreNode} (he : e ∈ l) :
    assocLookup e.1 l = some e.2 := by
  induction l with
  | nil => simp at he
  | cons f rest ih =>
    obtain ⟨k, n⟩ := f
    rw [List.map_cons, List.nodup_cons] at hnd
    rcases List.mem_cons.mp he with rfl | h
    · simp [assocLookup]
    · have hk : k ≠ e.1 := by
        intro hke
        have hm : e.1 ∈ rest.map Prod.fst := List.mem_map_of_mem Prod.fst h
        rw [hke] at hnd
        exact hnd.1 hm
      simp only [assocLookup, if_neg hk]
      exact ih hnd.2 h

namespace Store

theorem lookupNode_modifyNode (s : Store) (u v : Nat) (f : StoreNode → StoreNode) :
    (s.modifyNode u f).lookupNode v =
      if v = u then (s.lookupNode u).map f else s.lookupNode v := by
  simp [lookupNode, modifyNode, assocLookup_modify]

theorem isSome_lookup_modifyNode (s : Store) (u v : Nat) (f : StoreNode → StoreNode) :
    ((s.modifyNode u f).lookupNode v).isSome = (s.lookupNode v).isSome := by
  rw [lookupNode_modifyNode]
  by_cases hv : v = u <;> simp [hv]

theorem keys_modifyNode (s : Store) (u : Nat) (f : StoreNode → StoreNode) :
    (s.modifyNode u f).keys = s.keys := by
  simp [keys, modifyNode, assocModify_keys]

theorem childrenOf_modifyNode_ne (s : Store) (u v : Nat) (f : StoreNode → StoreNode)
    (h : v ≠ u) : (s.modifyNode u f).childrenOf v = s.childrenOf v := by
  simp [childrenOf, lookupNode_modifyNode, h]

theorem nameOf_modifyNode_of_name_eq (s : Store) (u v : Nat)
    (f : StoreNode → StoreNode) (hf : ∀ n, (f n).name = n.name) :
    (s.modifyNode u f).nameOf v = s.nameOf v := by
  simp only [nameOf, lookupNode_modifyNode]
  by_cases hv : v = u
  · subst hv
    cases s.lookupNode v with
    | none => simp
    | some n => simp [hf]
  · simp [hv]

theorem childrenOf_addChild_self (s : Store) (p c : Nat)
    (h : (s.lookupNode p).isSome) :
    (s.addChild p c).childrenOf p = s.childrenOf p ++ [c] := by
  rw [addChild, childrenOf, lookupNode_modifyNode]
  cases hl : s.lookupNode p with
  | none => rw [hl] at h; simp at h
  | some n => simp [childrenOf, hl]

theorem childrenOf_addChild_ne (s : Store) (p c v : Nat) (h : v ≠ p) :
    (s.addChild p c).childrenOf v = s.childrenOf v :=
  childrenOf_modifyNode_ne _ _ _ _ h

theorem childrenOf_removeChild_self (s : Store) (p c : Nat) :
    (s.removeChild p c).childrenOf p = (s.childrenOf p).erase c := by
  rw [removeChild, childrenOf, lookupNode_modifyNode]
  cases hl : s.lookupNode p with
  | none => simp [childrenOf, hl]
  | some n => simp [childrenOf, hl]

theorem childrenOf_removeChild_ne (s : Store) (p c v : Nat) (h : v ≠ p) :
    (s.removeChild p c).childrenOf v = s.childrenOf v :=
  childrenOf_modifyNode_ne _ _ _ _ h

theorem isSome_lookup_addChild (s : Store) (p c v : Nat) :
    ((s.addChild p c).lookupNode v).isSome = (s.lookupNode v).isSome :=
  isSome_lookup_modifyNode _ _ _ _

theorem isSome_lookup_removeChild (s : Store) (p c v : Nat) :
    ((s.removeChild p c).lookupNode v).isSome = (s.lookupNode v).isSome :=
  isSome_lookup_modifyNode _ _ _ _

theorem nameOf_addChild (s : Store) (p c v : Nat) :
    (s.addChild p c).nameOf v = s.nameOf v :=
  nameOf_modifyNode_of_name_eq _ _ _ _ (fun _ => rfl)

theorem nameOf_removeChild (s : Store) (p c v : Nat) :
    (s.removeChild p c).nameOf v = s.nameOf v :=
  nameOf_modifyNode_of_name_eq _ _ _ _ (fun _ => rfl)

/-- A found parent is a key whose entry's children contain the child. -/
theorem parentOf_spec {s : Store} {u p : Nat} (h : s.parentOf u = some p) :
    ∃ e ∈ s.nodes, e.1 = p ∧ u ∈ e.2.children := by
  rw [parentOf] at h
  cases hf : s.nodes.find? (fun e => e.2.children.contains u) with
  | none => rw [hf] at h; simp at h
  | some e =>
    rw [hf] at h
    simp at h
    refine ⟨e, List.mem_of_find?_eq_some hf, h, ?_⟩
    have := List.find?_some hf
    simpa using this

/-! Consequences of well-formedness used by the pruning proofs. -/

theorem wf_keys_nodup {s : Store} (h : s.wf = true) : s.keys.Nodup := by
  simp [wf] at h
  exact h.1.1.1.1

theorem wf_flat_nodup {s : Store} (h : s.wf = true) :
    (s.nodes.flatMap (fun e => e.2.children)).Nodup := by
  simp [wf] at h
  exact h.1.1.1.2

theorem wf_no_self_child {s : Store} (h : s.wf = true) :
    ∀ e ∈ s.nodes, e.1 ∉ e.2.children := by
  simp [wf] at h
  intro e he
  obtain ⟨a, b⟩ := e
  exact h.1.2 a b he

/-- Under well-formedness a node is not its own child. -/
theorem not_mem_childrenOf_self {s : Store} (h : s.wf = true) (u : Nat) :
    u ∉ s.childrenOf u := by
  intro hu
  rw [childrenOf] at hu
  cases hl : s.lookupNode u with
  | none => rw [hl] at hu; simp at hu
  | some n =>
    rw [hl] at hu
    simp at hu
    exact wf_no_self_child h (u, n) (assocLookup_mem hl) hu

/-- Under well-formedness a found parent differs from the child. -/
theorem parentOf_ne_self {s : Store} (hwf : s.wf = true) {u p : Nat}
    (h : s.parentOf u = some p) : p ≠ u := by
  obtain ⟨e, he, hp, hu⟩ := parentOf_spec h
  intro hpu
  subst hpu
  exact wf_no_self_child hwf e he (hp ▸ hu)

/-- Under well-formedness the child is among the children of its parent
(as read back through `childrenOf`). -/
theorem mem_childrenOf_parentOf {s : Store} (hwf : s.wf = true) {u p : Nat}
    (h : s.parentOf u = some p) :
    u ∈ s.childrenOf p ∧ (s.lookupNode p).isSome := by
  obtain ⟨e, he, hp, hu⟩ := parentOf_spec h
  have hl : s.lookupNode p = some e.2 := by
    have := assocLookup_of_mem (wf_keys_nodup hwf) he
    rw [hp] at this
    exact this
  refine ⟨?_, by simp [hl]⟩
  simp [childrenOf, hl, hu]

/-- Under well-formedness every children list is duplicate-free. -/
theorem childrenOf_nodup {s : Store} (hwf : s.wf = true) (u : Nat) :
    (s.childrenOf u).Nodup := by
  rw [childrenOf]
  cases hl : s.lookupNode u with
  | none => simp
  | some n =>
    simp
    have hmem : n.children ∈ s.nodes.map (fun e => e.2.children) :=
      List.mem_map_of_mem _ (assocLookup_mem hl)
    have hflat := wf_flat_nodup hwf
    rw [List.flatMap_def] at hflat
    exact (List.nodup_join.mp hflat).1 _ hmem

end Store

/-! ## C1 — pruning reparents live children before deleting -/

theorem pruneMoveFold_fst (uid parent : Nat) :
    ∀ (cs : List Nat) (s : Store) (d : SceneExportDiagnostics),
      (cs.foldl (pruneMoveStep uid parent) (s, d)).1 =
        cs.foldl (fun t c => (t.removeChild uid c).addChild parent c) s := by
  intro cs
  induction cs with
  | nil => intro s d; rfl
  | cons c rest ih =>
    intro s d
    rw [List.foldl_cons, List.foldl_cons]
    exact ih _ _

theorem pruneMoveFold_pruned (uid parent : Nat) :
    ∀ (cs : List Nat) (s : Store) (d : SceneExportDiagnostics),
      (cs.foldl (pruneMoveStep uid parent) (s, d)).2.pruned_nodes = d.pruned_nodes := by
  intro cs
  induction cs with
  | nil => intro s d; rfl
  | cons c rest ih =>
    intro s d
    rw [List.foldl_cons]
    exact ih _ _

theorem pruneStoreFold_props (uid parent : Nat) (hne : parent ≠ uid) :
    ∀ (cs : List Nat) (s : Store), (s.lookupNode parent).isSome = true →
      (cs.foldl (fun t c => (t.removeChild uid c).addChild parent c) s).childrenOf parent
          = s.childrenOf parent ++ cs ∧
      (cs.foldl (fun t c => (t.removeChild uid c).addChild parent c) s).childrenOf uid
          = cs.foldl (fun l c => l.erase c) (s.childrenOf uid) ∧
      ((cs.foldl (fun t c => (t.removeChild uid c).addChild parent c) s).lookupNode parent).isSome
          = true ∧
      (∀ v, (cs.foldl (fun t c => (t.removeChild uid c).addChild parent c) s).nameOf v
          = s.nameOf v) := by
  intro cs
  induction cs with
  | nil =>
    intro s hs
    refine ⟨by simp, rfl, hs, fun v => rfl⟩
  | cons c rest ih =>
    intro s hs
    have huidne : uid ≠ parent := fun h => hne h.symm
    have hs1 : (((s.removeChild uid c).addChild parent c).lookupNode parent).isSome = true := by
      rw [Store.isSome_lookup_addChild, Store.isSome_lookup_removeChild]
      exact hs
    obtain ⟨ihp, ihu, ihsome, ihname⟩ := ih ((s.removeChild uid c).addChild parent c) hs1
    have hcp : ((s.removeChild uid c).addChild parent c).childrenOf parent
        = s.childrenOf parent ++ [c] := by
      rw [Store.childrenOf_addChild_self]
      · rw [Store.childrenOf_removeChild_ne _ _ _ _ hne]
      · rw [Store.isSome_lookup_removeChild]
        exact hs
    have hcu : ((s.removeChild uid c).addChild parent c).childrenOf uid
        = (s.childrenOf uid).erase c := by
      rw [Store.childrenOf_addChild_ne _ _ _ _ huidne, Store.childrenOf_removeChild_self]
    refine ⟨?_, ?_, ?_, ?_⟩
    · rw [List.foldl_cons, ihp, hcp, List.append_assoc]
      rfl
    · rw [List.foldl_cons, ihu, hcu, List.foldl_cons]
    · rw [List.foldl_cons]
      exact ihsome
    · intro v
      rw [List.foldl_cons, ihname v, Store.nameOf_addChild, Store.nameOf_removeChild]

theorem foldl_erase_self : ∀ l : List Nat, l.foldl (fun acc x => acc.erase x) l = [] := by
  intro l
  induction l with
  | nil => rfl
  | cons x xs ih =>
    rw [List.foldl_cons, List.erase_cons_head]
    exact ih

/-- C1: a node of the index that is neither the store root nor marked used
and that still has a parent is pruned by moving each of its store children
into the former parent's child list and then detaching the node itself from
that parent (so its former children survive as children of the former
parent and its own child list is emptied first); a node without a parent is
skipped unchanged.  `_prune_unused_nodes` is the fold of `prune_step` over
the snapshot of the uid index. -/
theorem prune_preserves_live_descendants (rootUid : Nat) (used : List Nat)
    (s : Store) (d : SceneExportDiagnostics) (uid : Nat)
    (hwf : s.wf = true) (hroot : uid ≠ rootUid) (hused : uid ∉ used) :
    (∀ p, s.parentOf uid = some p →
      ((prune_step rootUid used (s, d) uid).1.childrenOf p
          = (s.childrenOf p).erase uid ++ s.childrenOf uid) ∧
      (∀ c ∈ s.childrenOf uid, c ∈ (prune_step rootUid used (s, d) uid).1.childrenOf p) ∧
      uid ∉ (prune_step rootUid used (s, d) uid).1.childrenOf p ∧
      (prune_step rootUid used (s, d) uid).1.childrenOf uid = [] ∧
      (prune_step rootUid used (s, d) uid).2.pruned_nodes
          = d.pruned_nodes ++ [summaryOf s uid]) ∧
    (s.parentOf uid = none → prune_step rootUid used (s, d) uid = (s, d)) := by
  have hcond : (uid = rootUid || used.contains uid) = false := by
    simp [hroot, hused]
  constructor
  · intro p hp
    have hpne : p ≠ uid := Store.parentOf_ne_self hwf hp
    obtain ⟨hmem, hsome⟩ := Store.mem_childrenOf_parentOf hwf hp
    have hstep : prune_step rootUid used (s, d) uid =
        (((s.childrenOf uid).foldl (pruneMoveStep uid p) (s, d)).1.removeChild p uid,
         ((s.childrenOf uid).foldl (pruneMoveStep uid p) (s, d)).2.record_pruned
           (summaryOf ((s.childrenOf uid).foldl (pruneMoveStep uid p) (s, d)).1 uid)) := by
      rw [prune_step]
      simp only [hcond, Bool.false_eq_true, if_false, hp]
    obtain ⟨hfp, hfu, hfsome, hfname⟩ :=
      pruneStoreFold_props uid p hpne (s.childrenOf uid) s hsome
    have hfold1 := pruneMoveFold_fst uid p (s.childrenOf uid) s d
    have hnotself := Store.not_mem_childrenOf_self hwf uid
    have hchildp : (prune_step rootUid used (s, d) uid).1.childrenOf p
        = (s.childrenOf p).erase uid ++ s.childrenOf uid := by
      rw [hstep]
      simp only
      rw [Store.childrenOf_removeChild_self, hfold1, hfp,
        List.erase_append_left _ hmem]
    refine ⟨hchildp, ?_, ?_, ?_, ?_⟩
    · intro c hc
      rw [hchildp]
      exact List.mem_append_right _ hc
    · rw [hchildp]
      intro hin
      rcases List.mem_append.mp hin with hin | hin
      · exact (Store.childrenOf_nodup hwf p).not_mem_erase hin
      · exact hnotself hin
    · rw [hstep]
      simp only
      rw [Store.childrenOf_removeChild_ne _ _ _ _ (fun h => hpne h.symm), hfold1, hfu,
        foldl_erase_self]
    · rw [hstep]
      simp only [SceneExportDiagnostics.record_pruned]
      rw [pruneMoveFold_pruned]
      have : summaryOf ((s.childrenOf uid).foldl (pruneMoveStep uid p) (s, d)).1 uid
          = summaryOf s uid := by
        rw [summaryOf, summaryOf, hfold1, hfname]
      rw [this]
  · intro hp
    rw [prune_step]
    simp only [hcond, Bool.false_eq_true, if_false, hp]

theorem prune_preserves_live_descendants_witness :
    ((prune_step 1 [1, 2] (pruneStore, {}) 3).1.childrenOf 2
        = ([3] : List Nat).erase 3 ++ [4, 5]) ∧
    (∀ c ∈ pruneStore.childrenOf 3, c ∈ (prune_step 1 [1, 2] (pruneStore, {}) 3).1.childrenOf 2) ∧
    3 ∉ (prune_step 1 [1, 2] (pruneStore, {}) 3).1.childrenOf 2 ∧
    (prune_step 1 [1, 2] (pruneStore, {}) 3).1.childrenOf 3 = [] := by
  have h := prune_preserves_live_descendants 1 [1, 2] pruneStore {} 3
    (by decide) (by decide) (by decide)
  have h2 := h.1 2 (by decide)
  exact ⟨by rw [h2.1]; decide, h2.2.1, h2.2.2.1, h2.2.2.2.1⟩

/-! ## C7 — cluster-matrix repair never finds the validator's node -/

/-- C7 evaluation at the failing input: the validator's `object_path` for
the mesh node is `/RootNode/Mesh` (it includes the scene root's name), but
`_find_node_by_path` matches the first path segment against the root's
children, so the lookup returns `None`; `AutoRepair` therefore skips the
`skin.cluster_matrix` issue — the cluster matrices stay unset, no repair
entry is appended and `fix_applied` stays `None` — while the lookup would
succeed for the rootless path `/Mesh`. -/
theorem cluster_repair_skipped :
    node_path ["RootNode", "Mesh"] = "/RootNode/Mesh" ∧
    find_node_by_path c7Root "/RootNode/Mesh" = none ∧
    (auto_repair_skin c7Root [c7Issue] [] []).2.1 = [c7Issue] ∧
    (auto_repair_skin c7Root [c7Issue] [] []).2.2.2 = [] ∧
    (auto_repair_skin c7Root [c7Issue] [] []).1.clusterSnapshots = [(none, none)] ∧
    find_node_by_path c7Root "/Mesh" = some [0] := by
  refine ⟨by decide, by decide, by decide, by decide, by decide, by decide⟩

/-! ## C6 — bind-pose synthesis -/

theorem repairSkinIssueStep_needs (acc : VNode × List SkinIssue × List RepairEntry × Bool)
    (issue : SkinIssue) :
    (repairSkinIssueStep acc issue).2.2.2 =
      (acc.2.2.2 || decide (issue.code ∈ bindPoseCodes)) := by
  have hdisj : issue.code ∈ clusterCodes → issue.code ∉ bindPoseCodes := by
    intro hc hb
    have hc2 : issue.code = "skin.cluster_matrix" ∨ issue.code = "skin.cluster_link_matrix" := by
      simpa [clusterCodes] using hc
    rcases hc2 with h | h <;> rw [h] at hb <;> revert hb <;> decide
  unfold repairSkinIssueStep
  by_cases hc : issue.code ∈ clusterCodes
  · have hnb := hdisj hc
    simp only [if_pos hc]
    split
    · simp [hnb]
    · split
      · simp [hnb]
      · split
        · simp [hnb]
        · simp [hnb]
  · by_cases hb : issue.code ∈ bindPoseCodes
    · simp [if_neg hc, hb]
    · simp [if_neg hc, hb]

theorem repairSkinIssueStep_bind_entries
    (acc : VNode × List SkinIssue × List RepairEntry × Bool) (issue : SkinIssue) :
    ((repairSkinIssueStep acc issue).2.2.1.filter
        (fun r => r.action == bindPoseFixMessage)).length =
      (acc.2.2.1.filter (fun r => r.action == bindPoseFixMessage)).length := by
  unfold repairSkinIssueStep
  by_cases hc : issue.code ∈ clusterCodes
  · simp only [if_pos hc]
    split
    · rfl
    · split
      · rfl
      · split
        · simp [List.filter_append, clusterFixMessage, bindPoseFixMessage]
        · rfl
  · by_cases hb : issue.code ∈ bindPoseCodes
    · simp [if_neg hc, hb]
    · simp [if_neg hc, hb]

theorem repairSkinFold_needs (issues : List SkinIssue) :
    ∀ (acc : VNode × List SkinIssue × List RepairEntry × Bool),
      ((issues.foldl repairSkinIssueStep acc).2.2.2 = true ↔
        acc.2.2.2 = true ∨ ∃ i ∈ issues, i.code ∈ bindPoseCodes) := by
  induction issues with
  | nil => intro acc; simp
  | cons issue rest ih =>
    intro acc
    rw [List.foldl_cons, ih, repairSkinIssueStep_needs]
    simp only [Bool.or_eq_true, decide_eq_true_eq]
    constructor
    · rintro ((h | h) | h)
      · exact Or.inl h
      · exact Or.inr ⟨issue, List.mem_cons_self _ _, h⟩
      · obtain ⟨i, hi, hbc⟩ := h
        exact Or.inr ⟨i, List.mem_cons_of_mem _ hi, hbc⟩
    · rintro (h | ⟨i, hi, hbc⟩)
      · exact Or.inl (Or.inl h)
      · rcases List.mem_cons.mp hi with rfl | hi
        · exact Or.inl (Or.inr hbc)
        · exact Or.inr ⟨i, hi, hbc⟩

theorem repairSkinFold_bind_entries (issues : List SkinIssue) :
    ∀ (acc : VNode × List SkinIssue × List RepairEntry × Bool),
      ((issues.foldl repairSkinIssueStep acc).2.2.1.filter
          (fun r => r.action == bindPoseFixMessage)).length =
        (acc.2.2.1.filter (fun r => r.action == bindPoseFixMessage)).length := by
  induction issues with
  | nil => intro acc; rfl
  | cons issue rest ih =>
    intro acc
    rw [List.foldl_cons, ih, repairSkinIssueStep_bind_entries]

/-- C6: whenever the skin category holds an issue coded
`skin.bind_pose_missing` or `skin.bind_pose_empty` — even when both codes
are present — AutoRepair appends exactly one new pose to the scene: a bind
pose named "AutoBindPose" containing every node of the scene tree paired
with its current evaluated world transform; it marks `fix_applied` on every
issue carrying either code, and appends exactly one "Bind pose
reconstructed." entry to the repair log. -/
theorem auto_repair_bind_pose (root : VNode) (issues : List SkinIssue)
    (poses : List Pose) (repairs : List RepairEntry)
    (h : ∃ i ∈ issues, i.code ∈ bindPoseCodes) :
    ((auto_repair_skin root issues poses repairs).2.2.1 =
      poses ++ [{ name := "AutoBindPose", is_bind_pose := true,
                  entries := (auto_repair_skin root issues poses repairs).1.iterNodes.map
                    (fun n => (n.name, n.world)) }]) ∧
    (∀ i ∈ (auto_repair_skin root issues poses repairs).2.1,
        i.code ∈ bindPoseCodes → i.fix_applied = some bindPoseFixMessage) ∧
    (((auto_repair_skin root issues poses repairs).2.2.2.filter
        (fun r => r.action == bindPoseFixMessage)).length =
      (repairs.filter (fun r => r.action == bindPoseFixMessage)).length + 1) := by
  have hneeds : (issues.foldl repairSkinIssueStep (root, [], repairs, false)).2.2.2 = true :=
    (repairSkinFold_needs issues (root, [], repairs, false)).mpr (Or.inr h)
  rw [auto_repair_skin]
  simp only [hneeds, if_pos]
  refine ⟨by trivial, ?_, ?_⟩
  · intro i hi hcode
    rcases List.mem_map.mp hi with ⟨j, hj, rfl⟩
    by_cases hjb : j.code ∈ bindPoseCodes
    · simp [hjb]
    · simp only [if_neg hjb] at hcode ⊢
      exact absurd hcode hjb
  · rw [List.filter_append]
    have hbase := repairSkinFold_bind_entries issues (root, [], repairs, false)
    simp only at hbase
    rw [List.length_append, hbase]
    simp [bindPoseFixMessage]

theorem auto_repair_bind_pose_witness :
    ((auto_repair_skin c7Root
        [{ code := "skin.bind_pose_missing", object_path := some "<poses>" },
         { code := "skin.bind_pose_empty", object_path := some "<poses>" }]
        [] []).2.2.1 =
      [] ++ [{ name := "AutoBindPose", is_bind_pose := true,
               entries := (auto_repair_skin c7Root
                 [{ code := "skin.bind_pose_missing", object_path := some "<poses>" },
                  { code := "skin.bind_pose_empty", object_path := some "<poses>" }]
                 [] []).1.iterNodes.map (fun n => (n.name, n.world)) }]) ∧
    (∀ i ∈ (auto_repair_skin c7Root
        [{ code := "skin.bind_pose_missing", object_path := some "<poses>" },
         { code := "skin.bind_pose_empty", object_path := some "<poses>" }]
        [] []).2.1,
        i.code ∈ bindPoseCodes → i.fix_applied = some bindPoseFixMessage) ∧
    (((auto_repair_skin c7Root
        [{ code := "skin.bind_pose_missing", object_path := some "<poses>" },
         { code := "skin.bind_pose_empty", object_path := some "<poses>" }]
        [] []).2.2.2.filter (fun r => r.action == bindPoseFixMessage)).length =
      (([] : List RepairEntry).filter (fun r => r.action == bindPoseFixMessage)).length + 1) :=
  auto_repair_bind_pose c7Root
    [{ code := "skin.bind_pose_missing", object_path := some "<poses>" },
     { code := "skin.bind_pose_empty", object_path := some "<poses>" }]
    [] []
    ⟨{ code := "skin.bind_pose_missing", object_path := some "<poses>" },
     by decide, by decide⟩

/-! ## C8 — symmetry and completeness of `SceneMetrics.diff` -/

theorem mem_insertSorted (x y : String) :
    ∀ l : List String, y ∈ insertSorted x l ↔ y = x ∨ y ∈ l := by
  intro l
  induction l with
  | nil => simp [insertSorted]
  | cons z zs ih =>
    rw [insertSorted]
    by_cases h : x < z
    · simp [h]
    · simp [h, ih]
      tauto

theorem mem_sortStrings (y : String) (l : List String) :
    y ∈ sortStrings l ↔ y ∈ l := by
  induction l with
  | nil => simp [sortStrings]
  | cons z zs ih =>
    rw [sortStrings, List.foldr_cons]
    rw [mem_insertSorted]
    rw [sortStrings] at ih
    simp [ih]

theorem mem_sortedKeyUnion (y : String) (a b : List String) :
    y ∈ sortedKeyUnion a b ↔ y ∈ a ∨ y ∈ b := by
  rw [sortedKeyUnion, mem_sortStrings, List.mem_dedup, List.mem_append]

theorem lookup_mem_keys {α : Type} :
    ∀ {l : List (String × α)} {k : String} {v : α},
      l.lookup k = some v → k ∈ l.map Prod.fst := by
  intro l
  induction l with
  | nil => intro k v h; simp [List.lookup] at h
  | cons e rest ih =>
    intro k v h
    obtain ⟨k0, v0⟩ := e
    rw [List.lookup] at h
    by_cases hk : k = k0
    · simp [hk]
    · have hbeq : (k == k0) = false := by simp [hk]
      rw [hbeq] at h
      simp only [List.map_cons, List.mem_cons]
      exact Or.inr (ih h)

theorem lookup_none_of_not_mem {α : Type} :
    ∀ {l : List (String × α)} {k : String},
      k ∉ l.map Prod.fst → l.lookup k = none := by
  intro l
  induction l with
  | nil => intro k h; rfl
  | cons e rest ih =>
    intro k h
    obtain ⟨k0, v0⟩ := e
    simp only [List.map_cons, List.mem_cons] at h
    push_neg at h
    rw [List.lookup]
    have hbeq : (k == k0) = false := by simp [h.1]
    rw [hbeq]
    exact ih h.2

theorem scalarDiff_metric_mem (x label : String) (sa sb : Int) :
    x ∈ (scalarDiff label sa sb).map DiffEntry.metric ↔ sa ≠ sb ∧ x = label := by
  rw [scalarDiff]
  by_cases h : sa ≠ sb <;> simp [h]

theorem layerKeyDiff_metric_mem (x key : String) (lhs rhs : MeshMetrics) (lk : String) :
    x ∈ (layerKeyDiff key lhs rhs lk).map DiffEntry.metric ↔
      lhs.layer_elements.lookup lk ≠ rhs.layer_elements.lookup lk ∧
        x = "mesh:" ++ key ++ ":layer:" ++ lk := by
  rw [layerKeyDiff]
  by_cases h : lhs.layer_elements.lookup lk ≠ rhs.layer_elements.lookup lk <;> simp [h]

theorem mem_map_flatMap {α β γ : Type} (g : β → γ) (f : α → List β) (l : List α)
    (x : γ) : x ∈ (l.flatMap f).map g ↔ ∃ y ∈ l, x ∈ (f y).map g := by
  simp only [List.mem_map, List.mem_flatMap]
  tauto

theorem ite_singleton_metric_mem (c : Prop) [Decidable c] (x : String) (e : DiffEntry) :
    x ∈ (if c then [e] else []).map DiffEntry.metric ↔ c ∧ x = e.metric := by
  split <;> simp [*]

theorem meshKeyDiff_metric_mem_symm (a b : SceneMetrics) (key x : String) :
    x ∈ (meshKeyDiff a b key).map DiffEntry.metric ↔
      x ∈ (meshKeyDiff b a key).map DiffEntry.metric := by
  rw [meshKeyDiff, meshKeyDiff]
  cases ha : a.mesh_metrics.lookup key with
  | none =>
    cases hb : b.mesh_metrics.lookup key with
    | none => simp
    | some lb => simp
  | some la =>
    cases hb : b.mesh_metrics.lookup key with
    | none => simp
    | some lb =>
      simp only [List.map_append, List.mem_append, ite_singleton_metric_mem,
        mem_map_flatMap, mem_sortedKeyUnion, layerKeyDiff_metric_mem]
      refine or_congr
        (or_congr (and_congr_left fun _ => ne_comm) (and_congr_left fun _ => ne_comm))
        (exists_congr fun lk => and_congr or_comm (and_congr_left fun _ => ne_comm))

theorem diff_metric_mem (a b : SceneMetrics) (x : String) :
    x ∈ (SceneMetrics.diff a b).map DiffEntry.metric ↔
      (a.node_count ≠ b.node_count ∧ x = "node_count") ∨
      (a.material_count ≠ b.material_count ∧ x = "material_count") ∨
      (a.texture_count ≠ b.texture_count ∧ x = "texture_count") ∨
      (a.skin_cluster_count ≠ b.skin_cluster_count ∧ x = "skin_cluster_count") ∨
      (a.bind_pose_count ≠ b.bind_pose_count ∧ x = "bind_pose_count") ∨
      (a.anim_stack_count ≠ b.anim_stack_count ∧ x = "anim_stack_count") ∨
      (a.anim_curve_count ≠ b.anim_curve_count ∧ x = "anim_curve_count") ∨
      (∃ key, (key ∈ a.meshKeys ∨ key ∈ b.meshKeys) ∧
        x ∈ (meshKeyDiff a b key).map DiffEntry.metric) := by
  rw [SceneMetrics.diff]
  simp only [List.map_append, List.mem_append, scalarDiff_metric_mem, mem_map_flatMap,
    mem_sortedKeyUnion, or_assoc]

/-- C8: `SceneMetrics.diff` is symmetric in detection — `a.diff(b)` is empty
iff `b.diff(a)` is, and the two directions enumerate the same set of metric
labels — and it is complete: a difference entry is produced for every
differing scalar counter, for every mesh key present on only one side, for
every differing per-mesh control-point/polygon count, and for every
differing per-layer element count. -/
theorem scene_metrics_diff_symmetric (a b : SceneMetrics) :
    (SceneMetrics.diff a b = [] ↔ SceneMetrics.diff b a = []) ∧
    (∀ label, label ∈ (SceneMetrics.diff a b).map DiffEntry.metric ↔
        label ∈ (SceneMetrics.diff b a).map DiffEntry.metric) ∧
    (a.node_count ≠ b.node_count →
        "node_count" ∈ (SceneMetrics.diff a b).map DiffEntry.metric) ∧
    (a.material_count ≠ b.material_count →
        "material_count" ∈ (SceneMetrics.diff a b).map DiffEntry.metric) ∧
    (a.texture_count ≠ b.texture_count →
        "texture_count" ∈ (SceneMetrics.diff a b).map DiffEntry.metric) ∧
    (a.skin_cluster_count ≠ b.skin_cluster_count →
        "skin_cluster_count" ∈ (SceneMetrics.diff a b).map DiffEntry.metric) ∧
    (a.bind_pose_count ≠ b.bind_pose_count →
        "bind_pose_count" ∈ (SceneMetrics.diff a b).map DiffEntry.metric) ∧
    (a.anim_stack_count ≠ b.anim_stack_count →
        "anim_stack_count" ∈ (SceneMetrics.diff a b).map DiffEntry.metric) ∧
    (a.anim_curve_count ≠ b.anim_curve_count →
        "anim_curve_count" ∈ (SceneMetrics.diff a b).map DiffEntry.metric) ∧
    (∀ key, (a.mesh_metrics.lookup key).isSome ≠ (b.mesh_metrics.lookup key).isSome →
        ("mesh:" ++ key) ∈ (SceneMetrics.diff a b).map DiffEntry.metric) ∧
    (∀ key la lb, a.mesh_metrics.lookup key = some la →
        b.mesh_metrics.lookup key = some lb →
        la.control_points ≠ lb.control_points →
        ("mesh:" ++ key ++ ":control_points") ∈ (SceneMetrics.diff a b).map DiffEntry.metric) ∧
    (∀ key la lb, a.mesh_metrics.lookup key = some la →
        b.mesh_metrics.lookup key = some lb →
        la.polygon_count ≠ lb.polygon_count →
        ("mesh:" ++ key ++ ":polygon_count") ∈ (SceneMetrics.diff a b).map DiffEntry.metric) ∧
    (∀ key la lb lk, a.mesh_metrics.lookup key = some la →
        b.mesh_metrics.lookup key = some lb →
        la.layer_elements.lookup lk ≠ lb.layer_elements.lookup lk →
        ("mesh:" ++ key ++ ":layer:" ++ lk) ∈ (SceneMetrics.diff a b).map DiffEntry.metric) := by
  have hsym : ∀ label, label ∈ (SceneMetrics.diff a b).map DiffEntry.metric ↔
      label ∈ (SceneMetrics.diff b a).map DiffEntry.metric := by
    intro label
    rw [diff_metric_mem, diff_metric_mem]
    refine or_congr (and_congr_left fun _ => ne_comm) ?_
    refine or_congr (and_congr_left fun _ => ne_comm) ?_
    refine or_congr (and_congr_left fun _ => ne_comm) ?_
    refine or_congr (and_congr_left fun _ => ne_comm) ?_
    refine or_congr (and_congr_left fun _ => ne_comm) ?_
    refine or_congr (and_congr_left fun _ => ne_comm) ?_
    refine or_congr (and_congr_left fun _ => ne_comm) ?_
    exact exists_congr fun key => and_congr or_comm (meshKeyDiff_metric_mem_symm a b key label)
  refine ⟨?_, hsym, ?_, ?_, ?_, ?_, ?_, ?_, ?_, ?_, ?_, ?_, ?_⟩
  · constructor
    · intro h
      rw [← List.map_eq_nil_iff (f := DiffEntry.metric)]
      rw [List.eq_nil_iff_forall_not_mem]
      intro x hx
      rw [← hsym x] at hx
      rw [h] at hx
      simp at hx
    · intro h
      rw [← List.map_eq_nil_iff (f := DiffEntry.metric)]
      rw [List.eq_nil_iff_forall_not_mem]
      intro x hx
      rw [hsym x] at hx
      rw [h] at hx
      simp at hx
  · intro h; exact (diff_metric_mem a b _).mpr (Or.inl ⟨h, rfl⟩)
  · intro h; exact (diff_metric_mem a b _).mpr (Or.inr (Or.inl ⟨h, rfl⟩))
  · intro h; exact (diff_metric_mem a b _).mpr (Or.inr (Or.inr (Or.inl ⟨h, rfl⟩)))
  · intro h
    exact (diff_metric_mem a b _).mpr (Or.inr (Or.inr (Or.inr (Or.inl ⟨h, rfl⟩))))
  · intro h
    exact (diff_metric_mem a b _).mpr (Or.inr (Or.inr (Or.inr (Or.inr (Or.inl ⟨h, rfl⟩)))))
  · intro h
    exact (diff_metric_mem a b _).mpr
      (Or.inr (Or.inr (Or.inr (Or.inr (Or.inr (Or.inl ⟨h, rfl⟩))))))
  · intro h
    exact (diff_metric_mem a b _).mpr
      (Or.inr (Or.inr (Or.inr (Or.inr (Or.inr (Or.inr (Or.inl ⟨h, rfl⟩)))))))
  · intro key h
    refine (diff_metric_mem a b _).mpr
      (Or.inr (Or.inr (Or.inr (Or.inr (Or.inr (Or.inr (Or.inr ⟨key, ?_, ?_⟩)))))))
    · cases ha : a.mesh_metrics.lookup key with
      | some la => exact Or.inl (lookup_mem_keys ha)
      | none =>
        cases hb : b.mesh_metrics.lookup key with
        | some lb => exact Or.inr (lookup_mem_keys hb)
        | none => rw [ha, hb] at h; simp at h
    · rw [meshKeyDiff]
      cases ha : a.mesh_metrics.lookup key with
      | none =>
        cases hb : b.mesh_metrics.lookup key with
        | none => rw [ha, hb] at h; simp at h
        | some lb => simp
      | some la =>
        cases hb : b.mesh_metrics.lookup key with
        | none => simp
        | some lb => rw [ha, hb] at h; simp at h
  · intro key la lb ha hb h
    refine (diff_metric_mem a b _).mpr
      (Or.inr (Or.inr (Or.inr (Or.inr (Or.inr (Or.inr (Or.inr
        ⟨key, Or.inl (lookup_mem_keys ha), ?_⟩)))))))
    rw [meshKeyDiff, ha, hb]
    simp [h]
  · intro key la lb ha hb h
    refine (diff_metric_mem a b _).mpr
      (Or.inr (Or.inr (Or.inr (Or.inr (Or.inr (Or.inr (Or.inr
        ⟨key, Or.inl (lookup_mem_keys ha), ?_⟩)))))))
    rw [meshKeyDiff, ha, hb]
    simp [h]
  · intro key la lb lk ha hb h
    refine (diff_metric_mem a b _).mpr
      (Or.inr (Or.inr (Or.inr (Or.inr (Or.inr (Or.inr (Or.inr
        ⟨key, Or.inl (lookup_mem_keys ha), ?_⟩)))))))
    rw [meshKeyDiff, ha, hb]
    simp only [List.map_append, List.mem_append, mem_map_flatMap, mem_sortedKeyUnion,
      layerKeyDiff_metric_mem]
    refine Or.inr ⟨lk, ?_, h, rfl⟩
    cases hla : la.layer_elements.lookup lk with
    | some v => exact Or.inl (lookup_mem_keys hla)
    | none =>
      cases hlb : lb.layer_elements.lookup lk with
      | some w => exact Or.inr (lookup_mem_keys hlb)
      | none => rw [hla, hlb] at h; simp at h

theorem scene_metrics_diff_symmetric_witness :
    (SceneMetrics.diff { node_count := 3 } { node_count := 4 } = [] ↔
      SceneMetrics.diff { node_count := 4 } { node_count := 3 } = []) ∧
    ("node_count" ∈
      (SceneMetrics.diff { node_count := 3 } { node_count := 4 }).map DiffEntry.metric) := by
  obtain ⟨h1, -, h3, -⟩ :=
    scene_metrics_diff_symmetric { node_count := 3 } { node_count := 4 }
  exact ⟨h1, h3 (by decide)⟩

/-! ## C10 — every model node leaves reconciliation with a uid -/

theorem self_mem_walk (m : SceneNode) : m ∈ m.walk := by
  cases m with
  | mk n a b t r s u p o cs =>
    rw [SceneNode.walk]
    exact List.mem_cons_self _ _

mutual

theorem sync_model_uids (resolve : String → Option Nat) (st : SyncState)
    (m : SceneNode) (parentFbx : Nat) :
    ∀ n ∈ (sync resolve st m parentFbx).2.1.walk, n.uid.isSome = true := by
  cases m with
  | mk mname a b t r s uidm pu op cs =>
    intro n hn
    rw [sync] at hn
    rw [SceneNode.walk] at hn
    rcases List.mem_cons.mp hn with rfl | hn
    · rfl
    · exact syncChildren_model_uids resolve _ cs _ n hn

theorem syncChildren_model_uids (resolve : String → Option Nat) (st : SyncState)
    (cs : List SceneNode) (parentFbx : Nat) :
    ∀ n ∈ SceneNode.walkList (syncChildren resolve st cs parentFbx).2.1,
      n.uid.isSome = true := by
  cases cs with
  | nil =>
    intro n hn
    rw [syncChildren] at hn
    simp [SceneNode.walkList] at hn
  | cons c rest =>
    intro n hn
    rw [syncChildren] at hn
    rw [SceneNode.walkList] at hn
    rcases List.mem_append.mp hn with hn | hn
    · exact sync_model_uids resolve st c parentFbx n hn
    · exact syncChildren_model_uids resolve _ rest parentFbx n hn

end

theorem sync_model_uid_eq (resolve : String → Option Nat) (st : SyncState)
    (m : SceneNode) (parentFbx : Nat) :
    (sync resolve st m parentFbx).2.1.uid =
      some (syncResolveNode st m.name m.uid m.parent_uid m.original_path parentFbx).2 := by
  cases m with
  | mk mname a b t r s uidm pu op cs =>
    rw [sync]
    rfl

/-- C10: after `_apply_scene_graph_changes` returns, every node of the
model tree carries a uid (`node_model.uid` was written back in every branch
of `sync`); in particular a model root with no uid and no parent uid adopts
the store root's unique id. -/
theorem reconciliation_assigns_uids (resolve : String → Option Nat) (s : Store)
    (m : SceneNode) (d : SceneExportDiagnostics) :
    (∀ n ∈ (apply_scene_graph_changes resolve s m d).model.walk,
        n.uid.isSome = true) ∧
    (m.uid = none → m.parent_uid = none →
      (apply_scene_graph_changes resolve s m d).model.uid = some s.rootUid) := by
  constructor
  · intro n hn
    rw [apply_scene_graph_changes] at hn
    exact sync_model_uids resolve _ m s.rootUid n hn
  · intro hu hp
    rw [apply_scene_graph_changes]
    show (sync resolve _ m s.rootUid).2.1.uid = some s.rootUid
    rw [sync_model_uid_eq, hu, hp]
    rw [syncResolveNode]
    simp

theorem reconciliation_assigns_uids_witness :
    ((apply_scene_graph_changes (fun _ => none) cexStore cexModelNoUid {}).model.uid.isSome
        = true) ∧
    ((apply_scene_graph_changes (fun _ => none) cexStore cexModelNoUid {}).model.uid
        = some cexStore.rootUid) := by
  have h := reconciliation_assigns_uids (fun _ => none) cexStore cexModelNoUid {}
  exact ⟨h.1 _ (self_mem_walk _), h.2 rfl rfl⟩

/-! ## Structural-likeness toolkit (for C2 and C3) -/

theorem assocLookup_isSome_proj :
    ∀ {l l' : List (Nat × StoreNode)},
      l.map (fun e => (e.1, e.2.children)) = l'.map (fun e => (e.1, e.2.children)) →
      ∀ u, (assocLookup u l).isSome = (assocLookup u l').isSome := by
  intro l
  induction l with
  | nil =>
    intro l' h u
    cases l' with
    | nil => rfl
    | cons e r => simp at h
  | cons e rest ih =>
    intro l' h u
    cases l' with
    | nil => simp at h
    | cons f r =>
      obtain ⟨k, n⟩ := e
      obtain ⟨k', n'⟩ := f
      simp only [List.map_cons, List.cons.injEq, Prod.mk.injEq] at h
      obtain ⟨⟨hk, hc⟩, hrest⟩ := h
      subst hk
      rw [assocLookup, assocLookup]
      by_cases hku : k = u
      · simp [hku]
      · simp only [if_neg hku]
        exact ih hrest u

theorem assocChildren_proj :
    ∀ {l l' : List (Nat × StoreNode)},
      l.map (fun e => (e.1, e.2.children)) = l'.map (fun e => (e.1, e.2.children)) →
      ∀ u, ((assocLookup u l).map StoreNode.children).getD [] =
        ((assocLookup u l').map StoreNode.children).getD [] := by
  intro l
  induction l with
  | nil =>
    intro l' h u
    cases l' with
    | nil => rfl
    | cons e r => simp at h
  | cons e rest ih =>
    intro l' h u
    cases l' with
    | nil => simp at h
    | cons f r =>
      obtain ⟨k, n⟩ := e
      obtain ⟨k', n'⟩ := f
      simp only [List.map_cons, List.cons.injEq, Prod.mk.injEq] at h
      obtain ⟨⟨hk, hc⟩, hrest⟩ := h
      subst hk
      rw [assocLookup, assocLookup]
      by_cases hku : k = u
      · simp [hku, hc]
      · simp only [if_neg hku]
        exact ih hrest u

theorem assocName_proj :
    ∀ {l l' : List (Nat × StoreNode)},
      l.map (fun e => (e.1, e.2.name)) = l'.map (fun e => (e.1, e.2.name)) →
      ∀ u, ((assocLookup u l).map StoreNode.name).getD "" =
        ((assocLookup u l').map StoreNode.name).getD "" := by
  intro l
  induction l with
  | nil =>
    intro l' h u
    cases l' with
    | nil => rfl
    | cons e r => simp at h
  | cons e rest ih =>
    intro l' h u
    cases l' with
    | nil => simp at h
    | cons f r =>
      obtain ⟨k, n⟩ := e
      obtain ⟨k', n'⟩ := f
      simp only [List.map_cons, List.cons.injEq, Prod.mk.injEq] at h
      obtain ⟨⟨hk, hc⟩, hrest⟩ := h
      subst hk
      rw [assocLookup, assocLookup]
      by_cases hku : k = u
      · simp [hku, hc]
      · simp only [if_neg hku]
        exact ih hrest u

theorem assocParent_proj :
    ∀ {l l' : List (Nat × StoreNode)},
      l.map (fun e => (e.1, e.2.children)) = l'.map (fun e => (e.1, e.2.children)) →
      ∀ c, (l.find? (fun e => e.2.children.contains c)).map Prod.fst =
        (l'.find? (fun e => e.2.children.contains c)).map Prod.fst := by
  intro l
  induction l with
  | nil =>
    intro l' h c
    cases l' with
    | nil => rfl
    | cons e r => simp at h
  | cons e rest ih =>
    intro l' h c
    cases l' with
    | nil => simp at h
    | cons f r =>
      obtain ⟨k, n⟩ := e
      obtain ⟨k', n'⟩ := f
      simp only [List.map_cons, List.cons.injEq, Prod.mk.injEq] at h
      obtain ⟨⟨hk, hc⟩, hrest⟩ := h
      subst hk
      rw [List.find?, List.find?]
      simp only [hc]
      cases hcc : (n'.children.contains c) with
      | true => rfl
      | false => exact ih hrest c

namespace StructLike

theorem refl (s : Store) : StructLike s s := ⟨rfl, rfl, rfl⟩

theorem rootUid_eq {s t : Store} (h : StructLike s t) : t.rootUid = s.rootUid := by
  have := congrArg Prod.fst h.1
  simpa [structProj] using this

theorem keys_eq {s t : Store} (h : StructLike s t) : t.keys = s.keys := by
  have := congrArg Prod.snd h.1
  simp only [structProj] at this
  have h2 := congrArg (List.map Prod.fst) this
  simpa [Store.keys, List.map_map, Function.comp] using h2

theorem nodesProj {s t : Store} (h : StructLike s t) :
    t.nodes.map (fun e => (e.1, e.2.children)) =
      s.nodes.map (fun e => (e.1, e.2.children)) := by
  have := congrArg Prod.snd h.1
  simpa [structProj] using this

theorem childrenOf_eq {s t : Store} (h : StructLike s t) (u : Nat) :
    t.childrenOf u = s.childrenOf u :=
  assocChildren_proj (nodesProj h) u

theorem nameOf_eq {s t : Store} (h : StructLike s t) (u : Nat) :
    t.nameOf u = s.nameOf u :=
  assocName_proj h.2.1 u

theorem lookup_isSome_eq {s t : Store} (h : StructLike s t) (u : Nat) :
    (t.lookupNode u).isSome = (s.lookupNode u).isSome :=
  assocLookup_isSome_proj (nodesProj h) u

theorem parentOf_eq {s t : Store} (h : StructLike s t) (u : Nat) :
    t.parentOf u = s.parentOf u :=
  assocParent_proj (nodesProj h) u

theorem summaryOf_eq {s t : Store} (h : StructLike s t) (u : Nat) :
    summaryOf t u = summaryOf s u := by
  rw [summaryOf, summaryOf, nameOf_eq h]

theorem trans {s t w : Store} (h1 : StructLike s t) (h2 : StructLike t w) :
    StructLike s w :=
  ⟨h2.1.trans h1.1, h2.2.1.trans h1.2.1, h2.2.2.trans h1.2.2⟩

theorem any_map_pointwise {α β : Type} (f : α → β) (p : β → Bool) :
    ∀ l : List α, (l.map f).any p = l.any (fun x => p (f x)) := by
  intro l
  induction l with
  | nil => rfl
  | cons x xs ih => simp [ih]

theorem all_map_pointwise {α β : Type} (f : α → β) (p : β → Bool) :
    ∀ l : List α, (l.map f).all p = l.all (fun x => p (f x)) := by
  intro l
  induction l with
  | nil => rfl
  | cons x xs ih => simp [ih]

theorem any_proj_eq {l l' : List (Nat × StoreNode)}
    (h : l.map (fun e => (e.1, e.2.children)) = l'.map (fun e => (e.1, e.2.children)))
    (p : Nat × List Nat → Bool) :
    l.any (fun e => p (e.1, e.2.children)) = l'.any (fun e => p (e.1, e.2.children)) := by
  rw [← any_map_pointwise (fun e : Nat × StoreNode => (e.1, e.2.children)) p l,
    ← any_map_pointwise (fun e : Nat × StoreNode => (e.1, e.2.children)) p l', h]

theorem all_proj_eq {l l' : List (Nat × StoreNode)}
    (h : l.map (fun e => (e.1, e.2.children)) = l'.map (fun e => (e.1, e.2.children)))
    (p : Nat × List Nat → Bool) :
    l.all (fun e => p (e.1, e.2.children)) = l'.all (fun e => p (e.1, e.2.children)) := by
  rw [← all_map_pointwise (fun e : Nat × StoreNode => (e.1, e.2.children)) p l,
    ← all_map_pointwise (fun e : Nat × StoreNode => (e.1, e.2.children)) p l', h]

theorem wf_eq {s t : Store} (h : StructLike s t) : t.wf = s.wf := by
  have hflat : t.nodes.flatMap (fun e => e.2.children) =
      s.nodes.flatMap (fun e => e.2.children) := by
    have h1 := congrArg (List.map Prod.snd) (nodesProj h)
    simp only [List.map_map] at h1
    rw [List.flatMap_def, List.flatMap_def]
    have h2 : t.nodes.map (fun e => e.2.children) = s.nodes.map (fun e => e.2.children) := by
      simpa [Function.comp] using h1
    rw [h2]
  have hroot : (t.nodes.any (fun e => e.2.children.contains t.rootUid)) =
      (s.nodes.any (fun e => e.2.children.contains s.rootUid)) := by
    rw [rootUid_eq h]
    exact any_proj_eq (nodesProj h) (fun q => q.2.contains s.rootUid)
  have hself : (t.nodes.all (fun e => !(e.2.children.contains e.1))) =
      (s.nodes.all (fun e => !(e.2.children.contains e.1))) :=
    all_proj_eq (nodesProj h) (fun q => !(q.2.contains q.1))
  have hnext : (t.nodes.all (fun e => decide (e.1 < t.nextUid))) =
      (s.nodes.all (fun e => decide (e.1 < s.nextUid))) := by
    rw [h.2.2]
    exact all_proj_eq (nodesProj h) (fun q => decide (q.1 < s.nextUid))
  rw [Store.wf, Store.wf, keys_eq h, hflat, hroot, hself, hnext]

end StructLike

/-! ## Well-formed-store facts about parents, and small list facts -/

theorem contains_iff_mem {l : List Nat} {a : Nat} : l.contains a = true ↔ a ∈ l := by
  induction l with
  | nil => simp
  | cons x xs ih =>
    simp only [List.contains_cons, Bool.or_eq_true, beq_iff_eq, ih, List.mem_cons]

theorem mem_insertKey {l : List Nat} {a u : Nat} :
    a ∈ insertKey l u ↔ a ∈ l ∨ a = u := by
  rw [insertKey]
  by_cases h : l.contains u
  · simp only [if_pos h]
    constructor
    · exact Or.inl
    · rintro (ha | rfl)
      · exact ha
      · exact contains_iff_mem.mp h
  · simp only [if_neg h]
    simp

theorem insertKey_of_mem {l : List Nat} {u : Nat} (h : u ∈ l) :
    insertKey l u = l := by
  rw [insertKey, if_pos (contains_iff_mem.mpr h)]

theorem mem_foldl_insertKey (l : List Nat) :
    ∀ (init : List Nat) (a : Nat),
      a ∈ l.foldl insertKey init ↔ a ∈ init ∨ a ∈ l := by
  induction l with
  | nil => intro init a; simp
  | cons x xs ih =>
    intro init a
    rw [List.foldl_cons, ih, mem_insertKey, List.mem_cons, or_assoc]

/-- Under well-formedness, a node listed among the children of `u` has `u`
as its parent. -/
theorem assocParent_of_mem_children :
    ∀ (l : List (Nat × StoreNode)),
      (l.flatMap (fun e => e.2.children)).Nodup →
      ∀ u c, c ∈ ((assocLookup u l).map StoreNode.children).getD [] →
        (l.find? (fun e => e.2.children.contains c)).map Prod.fst = some u := by
  intro l
  induction l with
  | nil => intro _ u c hc; simp [assocLookup] at hc
  | cons e rest ih =>
    intro hnd u c hc
    obtain ⟨k, n⟩ := e
    rw [List.flatMap_cons] at hnd
    have hdisj := List.disjoint_of_nodup_append hnd
    have hndr := hnd.of_append_right
    by_cases hk : k = u
    · subst hk
      rw [assocLookup] at hc
      simp at hc
      rw [List.find?]
      have : ((k, n).2.children.contains c) = true := contains_iff_mem.mpr hc
      rw [this]
      rfl
    · rw [assocLookup, if_neg hk] at hc
      have hcrest : c ∈ rest.flatMap (fun e => e.2.children) := by
        cases hl : assocLookup u rest with
        | none => rw [hl] at hc; simp at hc
        | some m =>
          rw [hl] at hc
          simp at hc
          exact List.mem_flatMap.mpr ⟨(u, m), assocLookup_mem hl, hc⟩
      have hnotn : c ∉ n.children := fun hcn => hdisj hcn hcrest
      rw [List.find?]
      have : ((k, n).2.children.contains c) = false := by
        rw [← Bool.not_eq_true]
        intro hcontra
        exact hnotn (contains_iff_mem.mp hcontra)
      rw [this]
      exact ih hndr u c hc

theorem Store.parentOf_of_mem_children {s : Store} (hwf : s.wf = true) {u c : Nat}
    (hc : c ∈ s.childrenOf u) : s.parentOf c = some u :=
  assocParent_of_mem_children s.nodes (Store.wf_flat_nodup hwf) u c hc

/-- Under well-formedness the root has no parent. -/
theorem Store.parentOf_root {s : Store} (hwf : s.wf = true) :
    s.parentOf s.rootUid = none := by
  rw [Store.parentOf]
  have hfind : s.nodes.find? (fun e => e.2.children.contains s.rootUid) = none := by
    rw [List.find?_eq_none]
    intro e he
    simp [Store.wf] at hwf
    obtain ⟨a, b⟩ := e
    have hnc := hwf.1.1.2 a b he
    intro hcontra
    exact hnc (contains_iff_mem.mp hcontra)
  rw [hfind]
  rfl

/-! ## Preservation lemmas for the matched-run proof -/

theorem assocModify_proj_children (u : Nat) (f : StoreNode → StoreNode)
    (hf : ∀ n, (f n).children = n.children) :
    ∀ l : List (Nat × StoreNode),
      (assocModify u f l).map (fun e => (e.1, e.2.children)) =
        l.map (fun e => (e.1, e.2.children)) := by
  intro l
  induction l with
  | nil => rfl
  | cons e rest ih =>
    obtain ⟨k, n⟩ := e
    by_cases hk : k = u <;> simp [assocModify, hk, hf, ih]

theorem assocModify_proj_names (u : Nat) (f : StoreNode → StoreNode)
    (hf : ∀ n, (f n).name = n.name) :
    ∀ l : List (Nat × StoreNode),
      (assocModify u f l).map (fun e => (e.1, e.2.name)) =
        l.map (fun e => (e.1, e.2.name)) := by
  intro l
  induction l with
  | nil => rfl
  | cons e rest ih =>
    obtain ⟨k, n⟩ := e
    by_cases hk : k = u <;> simp [assocModify, hk, hf, ih]

theorem structLike_modifyNode (t : Store) (u : Nat) (f : StoreNode → StoreNode)
    (hc : ∀ n, (f n).children = n.children) (hn : ∀ n, (f n).name = n.name) :
    StructLike t (t.modifyNode u f) := by
  refine ⟨?_, ?_, rfl⟩
  · rw [structProj, structProj]
    simp only [Store.modifyNode]
    rw [assocModify_proj_children u f hc]
  · rw [namesProj, namesProj]
    simp only [Store.modifyNode]
    rw [assocModify_proj_names u f hn]

theorem assocModify_eq_self (u : Nat) (f : StoreNode → StoreNode) :
    ∀ l : List (Nat × StoreNode),
      (∀ n, assocLookup u l = some n → f n = n) → assocModify u f l = l := by
  intro l
  induction l with
  | nil => intro _; rfl
  | cons e rest ih =>
    intro h
    obtain ⟨k, n⟩ := e
    by_cases hk : k = u
    · subst hk
      have hfix : f n = n := h n (by simp [assocLookup])
      simp [assocModify, hfix]
    · rw [assocModify, if_neg hk]
      have hrest : ∀ m, assocLookup u rest = some m → f m = m := by
        intro m hm
        exact h m (by rw [assocLookup, if_neg hk]; exact hm)
      rw [ih hrest]

/-- When every current child is desired, `_remove_orphaned_children` leaves
the store and the diagnostics untouched. -/
theorem remove_orphans_noop (s : Store) (u : Nat) (desired : List Nat)
    (d : SceneExportDiagnostics)
    (h : ∀ c ∈ s.childrenOf u, c ∈ desired) :
    remove_orphaned_children s u desired d = (s, d) := by
  have hall : ∀ c ∈ s.childrenOf u, (desired.contains c) = true := by
    intro c hc
    exact contains_iff_mem.mpr (h c hc)
  have hfilter_neg : (s.childrenOf u).filter (fun c => !desired.contains c) = [] := by
    rw [List.filter_eq_nil_iff]
    intro c hc
    simp only [hall c hc, Bool.not_true, Bool.false_eq_true, not_false_eq_true]
  have hfilter_pos : (s.childrenOf u).filter (fun c => desired.contains c)
      = s.childrenOf u :=
    List.filter_eq_self.mpr hall
  rw [remove_orphaned_children]
  rw [hfilter_neg]
  have hmod : s.modifyNode u
      (fun n => { n with children := n.children.filter (fun c => desired.contains c) }) = s := by
    rw [Store.modifyNode]
    have : assocModify u
        (fun n => { n with children := n.children.filter (fun c => desired.contains c) })
        s.nodes = s.nodes := by
      apply assocModify_eq_self
      intro n hn
      have hcn : n.children = s.childrenOf u := by
        rw [Store.childrenOf, Store.lookupNode, hn]
        rfl
      have : n.children.filter (fun c => desired.contains c) = n.children := by
        rw [hcn, hfilter_pos]
      rw [this]
    rw [this]
  rw [hmod]
  rfl

theorem syncApply_matched (resolve : String → Option Nat) (s₀ : Store) (st : SyncState)
    (mAttrType mAttrClass : String) (mT mR mS : Vec3) (mPath : List Nat) (u : Nat)
    (hsl : StructLike s₀ st.store) :
    StructLike s₀ (syncApply resolve st mAttrType mAttrClass mT mR mS mPath u).store ∧
    (syncApply resolve st mAttrType mAttrClass mT mR mS mPath u).existing_nodes
        = insertKey st.existing_nodes u ∧
    (syncApply resolve st mAttrType mAttrClass mT mR mS mPath u).used_uids
        = insertKey st.used_uids u ∧
    (syncApply resolve st mAttrType mAttrClass mT mR mS mPath u).diag =
      { st.diag with
          attribute_updates := st.diag.attribute_updates ++
            [{ node := summaryOf s₀ u, attribute_type := mAttrType,
               attribute_class := mAttrClass }],
          transform_updates := st.diag.transform_updates ++
            [{ node := summaryOf s₀ u, translation := mT, rotation := mR,
               scaling := mS }] } := by
  have hsl3 : StructLike s₀ (st.store.modifyNode u (fun n =>
      { n with attr := apply_node_attribute resolve (st.store.attrOf u) mAttrType })) :=
    StructLike.trans hsl
      (structLike_modifyNode _ _ _ (fun n => rfl) (fun n => rfl))
  have hsl4 : StructLike s₀ ((st.store.modifyNode u (fun n =>
      { n with attr := apply_node_attribute resolve (st.store.attrOf u) mAttrType })).modifyNode
        u (fun n => { n with lclTranslation := mT, lclRotation := mR, lclScaling := mS })) :=
    StructLike.trans hsl3
      (structLike_modifyNode _ _ _ (fun n => rfl) (fun n => rfl))
  refine ⟨hsl4, rfl, rfl, ?_⟩
  rw [syncApply]
  simp only [SceneExportDiagnostics.record_attribute, SceneExportDiagnostics.record_transform]
  rw [StructLike.summaryOf_eq hsl3, StructLike.summaryOf_eq hsl4]

theorem syncResolveNode_reuse (st : SyncState) (mname : String) (u parentFbx : Nat)
    (mParentUid : Option Nat) (mPath : List Nat)
    (hmem : u ∈ st.existing_nodes)
    (hne : u ≠ parentFbx)
    (hpar : st.store.parentOf u = some parentFbx) :
    syncResolveNode st mname (some u) mParentUid mPath parentFbx = (st, u) := by
  have hcont : st.existing_nodes.contains u = true := contains_iff_mem.mpr hmem
  have hens : ensure_parent st.store parentFbx u = st.store := by
    rw [ensure_parent, if_neg hne, hpar]
    simp
  rw [syncResolveNode]
  simp only [hcont, if_pos, hpar, hens]
  simp

theorem syncResolveNode_root (st : SyncState) (mname : String)
    (mParentUid : Option Nat) (mPath : List Nat)
    (hmem : st.store.rootUid ∈ st.existing_nodes)
    (hpar : st.store.parentOf st.store.rootUid = none) :
    syncResolveNode st mname (some st.store.rootUid) mParentUid mPath st.store.rootUid =
      ({ st with diag := (st.diag.record_reparent (summaryOf st.store st.store.rootUid)
           none (some (summaryOf st.store st.store.rootUid))) }, st.store.rootUid) := by
  rw [syncResolveNode]
  have hcont : st.existing_nodes.contains st.store.rootUid = true := contains_iff_mem.mpr hmem
  simp only [hcont, if_pos]
  rw [hpar]
  have hens : ensure_parent st.store st.store.rootUid st.store.rootUid = st.store := by
    rw [ensure_parent, if_pos rfl]
  rw [hens]
  simp

mutual

theorem matchesFrom_structLike (s t : Store) (hsl : StructLike s t) (m : SceneNode) :
    matchesFrom t m = matchesFrom s m := by
  cases m with
  | mk n a b tr r sc uidm pu op cs =>
    simp only [matchesFrom]
    have hrec := matchesFromList_structLike s t hsl cs
    rw [hrec]
    congr 1
    cases uidm with
    | none => rfl
    | some u =>
      dsimp only
      have hchild := StructLike.childrenOf_eq hsl u
      have hsome := StructLike.lookup_isSome_eq hsl u
      cases ht : t.lookupNode u with
      | none =>
        cases hs : s.lookupNode u with
        | none => rfl
        | some sn => rw [ht, hs] at hsome; simp at hsome
      | some tn =>
        cases hs : s.lookupNode u with
        | none => rw [ht, hs] at hsome; simp at hsome
        | some sn =>
          have htc : tn.children = t.childrenOf u := by
            rw [Store.childrenOf, ht]; rfl
          have hsc2 : sn.children = s.childrenOf u := by
            rw [Store.childrenOf, hs]; rfl
          have hts : tn.children = sn.children := by
            rw [htc, hsc2, hchild]
          dsimp only
          rw [hts]

theorem matchesFromList_structLike (s t : Store) (hsl : StructLike s t)
    (cs : List SceneNode) : matchesFromList t cs = matchesFromList s cs := by
  cases cs with
  | nil => rfl
  | cons c rest =>
    rw [matchesFromList, matchesFromList, matchesFrom_structLike s t hsl c,
      matchesFromList_structLike s t hsl rest]

end

theorem matched_structLike {s t : Store} (hsl : StructLike s t) (m : SceneNode) :
    matched t m = matched s m := by
  rw [matched, matched, StructLike.rootUid_eq hsl, matchesFrom_structLike s t hsl m]

/-! ## The matched reconciliation run (C2 / C3 core) -/

theorem walk_mk (n a b : String) (tr r sc : Vec3) (u pu : Option Nat)
    (op : List Nat) (cs : List SceneNode) :
    (SceneNode.mk n a b tr r sc u pu op cs).walk =
      SceneNode.mk n a b tr r sc u pu op cs :: SceneNode.walkList cs := by
  rw [SceneNode.walk]

theorem walkList_cons (c : SceneNode) (cs : List SceneNode) :
    SceneNode.walkList (c :: cs) = c.walk ++ SceneNode.walkList cs := by
  rw [SceneNode.walkList]

theorem matchesFrom_unpack {s₀ : Store} {n a b : String} {tr r sc : Vec3}
    {uidm pu : Option Nat} {op : List Nat} {cs : List SceneNode}
    (h : matchesFrom s₀ (.mk n a b tr r sc uidm pu op cs) = true) :
    ∃ u, uidm = some u ∧
      s₀.childrenOf u = cs.map SceneNode.uidD ∧
      (s₀.lookupNode u).isSome = true ∧
      (∀ c ∈ cs, c.uid.isSome = true) ∧
      matchesFromList s₀ cs = true := by
  simp only [matchesFrom] at h
  rw [Bool.and_eq_true] at h
  obtain ⟨h1, h2⟩ := h
  cases uidm with
  | none => simp at h1
  | some u =>
    dsimp only at h1
    refine ⟨u, rfl, ?_, ?_, ?_, h2⟩
    · cases hl : s₀.lookupNode u with
      | none => rw [hl] at h1; simp at h1
      | some sn =>
        rw [hl] at h1
        simp only [Bool.and_eq_true, decide_eq_true_eq] at h1
        rw [Store.childrenOf, hl]
        exact h1.1
    · cases hl : s₀.lookupNode u with
      | none => rw [hl] at h1; simp at h1
      | some sn => simp [hl]
    · cases hl : s₀.lookupNode u with
      | none => rw [hl] at h1; simp at h1
      | some sn =>
        rw [hl] at h1
        simp only [Bool.and_eq_true, decide_eq_true_eq, List.all_eq_true] at h1
        intro c hc
        exact h1.2 c hc

theorem matchesFromList_unpack {s₀ : Store} {c : SceneNode} {cs : List SceneNode}
    (h : matchesFromList s₀ (c :: cs) = true) :
    matchesFrom s₀ c = true ∧ matchesFromList s₀ cs = true := by
  rw [matchesFromList, Bool.and_eq_true] at h
  exact h

mutual

theorem sync_matched (resolve : String → Option Nat) (s₀ : Store) (m : SceneNode) :
    ∀ (st : SyncState) (u parentFbx : Nat),
      s₀.wf = true →
      matchesFrom s₀ m = true →
      m.uid = some u →
      s₀.parentOf u = some parentFbx →
      StructLike s₀ st.store →
      (∀ w ∈ m.preUids, w ∈ st.existing_nodes) →
      StructLike s₀ (sync resolve st m parentFbx).1.store ∧
      (sync resolve st m parentFbx).1.existing_nodes = st.existing_nodes ∧
      (∀ w, w ∈ (sync resolve st m parentFbx).1.used_uids ↔
        w ∈ st.used_uids ∨ w ∈ m.preUids) ∧
      (sync resolve st m parentFbx).2.1 = m ∧
      (sync resolve st m parentFbx).2.2 = u ∧
      (sync resolve st m parentFbx).1.diag =
        { st.diag with
            attribute_updates := st.diag.attribute_updates ++ expectedAttrRecords s₀ m,
            transform_updates :=
              st.diag.transform_updates ++ expectedTransformRecords s₀ m } := by
  cases m with
  | mk mname mA mB mT mR mS uidm pu op cs =>
    intro st u parentFbx hwf hm hmu hpar hsl hE
    rw [SceneNode.uid] at hmu
    subst hmu
    obtain ⟨u', hu', hchild, hlook, hcuid, hlist⟩ := matchesFrom_unpack hm
    obtain rfl : u = u' := by injection hu'
    have hpre : (SceneNode.mk mname mA mB mT mR mS (some u) pu op cs).preUids
        = u :: (SceneNode.walkList cs).map SceneNode.uidD := by
      rw [SceneNode.preUids, walk_mk, List.map_cons]
      congr 1
    have hEu : u ∈ st.existing_nodes := by
      apply hE
      rw [hpre]
      exact List.mem_cons_self _ _
    have hne : u ≠ parentFbx := fun h => (Store.parentOf_ne_self hwf hpar) h.symm
    have hparst : st.store.parentOf u = some parentFbx := by
      rw [StructLike.parentOf_eq hsl]
      exact hpar
    have hbranch := syncResolveNode_reuse st mname u parentFbx pu op hEu hne hparst
    obtain ⟨hsl3, hex3, hused3, hdiag3⟩ :=
      syncApply_matched resolve s₀ st mA mB mT mR mS op u hsl
    have hchildhyp : ∀ c ∈ cs, ∃ uc, c.uid = some uc ∧ s₀.parentOf uc = some u := by
      intro c hc
      cases hcu : c.uid with
      | none =>
        have := hcuid c hc
        rw [hcu] at this
        simp at this
      | some uc =>
        refine ⟨uc, rfl, ?_⟩
        apply Store.parentOf_of_mem_children hwf
        rw [hchild]
        have huc : SceneNode.uidD c = uc := by rw [SceneNode.uidD, hcu]; rfl
        rw [← huc]
        exact List.mem_map_of_mem _ hc
    have hE3 : ∀ w ∈ (SceneNode.walkList cs).map SceneNode.uidD,
        w ∈ (syncApply resolve st mA mB mT mR mS op u).existing_nodes := by
      intro w hw
      rw [hex3, mem_insertKey]
      left
      apply hE
      rw [hpre]
      exact List.mem_cons_of_mem _ hw
    obtain ⟨hslr, hexr, husedr, hmodsr, huidsr, hdiagr⟩ :=
      syncChildren_matched resolve s₀ cs (syncApply resolve st mA mB mT mR mS op u) u
        hwf hlist hchildhyp hsl3 hE3
    have hnoop : remove_orphaned_children
        (syncChildren resolve (syncApply resolve st mA mB mT mR mS op u) cs u).1.store u
        (syncChildren resolve (syncApply resolve st mA mB mT mR mS op u) cs u).2.2
        (syncChildren resolve (syncApply resolve st mA mB mT mR mS op u) cs u).1.diag =
        ((syncChildren resolve (syncApply resolve st mA mB mT mR mS op u) cs u).1.store,
         (syncChildren resolve (syncApply resolve st mA mB mT mR mS op u) cs u).1.diag) := by
      apply remove_orphans_noop
      intro c hc
      rw [StructLike.childrenOf_eq hslr, hchild] at hc
      rw [huidsr]
      exact hc
    have hExpA : expectedAttrRecords s₀ (SceneNode.mk mname mA mB mT mR mS (some u) pu op cs) =
        ({ node := summaryOf s₀ u, attribute_type := mA,
           attribute_class := mB } : AttributeRecord) ::
          (SceneNode.walkList cs).map (fun nd =>
            ({ node := summaryOf s₀ nd.uidD, attribute_type := nd.attribute_type,
               attribute_class := nd.attribute_class } : AttributeRecord)) := by
      rw [expectedAttrRecords, walk_mk, List.map_cons]
      congr 1
    have hExpT : expectedTransformRecords s₀
          (SceneNode.mk mname mA mB mT mR mS (some u) pu op cs) =
        ({ node := summaryOf s₀ u, translation := mT, rotation := mR,
           scaling := mS } : TransformRecord) ::
          (SceneNode.walkList cs).map (fun nd =>
            ({ node := summaryOf s₀ nd.uidD, translation := nd.translation,
               rotation := nd.rotation, scaling := nd.scaling } : TransformRecord)) := by
      rw [expectedTransformRecords, walk_mk, List.map_cons]
      congr 1
    rw [sync]
    simp only [hbranch]
    rw [hnoop]
    refine ⟨hslr, ?_, ?_, ?_, ?_, ?_⟩
    · rw [hexr, hex3]
      exact insertKey_of_mem hEu
    · intro w
      rw [husedr w, hused3, mem_insertKey, hpre, List.mem_cons]
      tauto
    · rw [hmodsr]
    · trivial
    · show (syncChildren resolve (syncApply resolve st mA mB mT mR mS op u) cs u).1.diag = _
      rw [hdiagr, hdiag3, hExpA, hExpT]
      simp [List.append_assoc]

theorem syncChildren_matched (resolve : String → Option Nat) (s₀ : Store)
    (cs : List SceneNode) :
    ∀ (st : SyncState) (parentFbx : Nat),
      s₀.wf = true →
      matchesFromList s₀ cs = true →
      (∀ c ∈ cs, ∃ uc, c.uid = some uc ∧ s₀.parentOf uc = some parentFbx) →
      StructLike s₀ st.store →
      (∀ w ∈ (SceneNode.walkList cs).map SceneNode.uidD, w ∈ st.existing_nodes) →
      StructLike s₀ (syncChildren resolve st cs parentFbx).1.store ∧
      (syncChildren resolve st cs parentFbx).1.existing_nodes = st.existing_nodes ∧
      (∀ w, w ∈ (syncChildren resolve st cs parentFbx).1.used_uids ↔
        w ∈ st.used_uids ∨ w ∈ (SceneNode.walkList cs).map SceneNode.uidD) ∧
      (syncChildren resolve st cs parentFbx).2.1 = cs ∧
      (syncChildren resolve st cs parentFbx).2.2 = cs.map SceneNode.uidD ∧
      (syncChildren resolve st cs parentFbx).1.diag =
        { st.diag with
            attribute_updates := st.diag.attribute_updates ++
              (SceneNode.walkList cs).map (fun nd =>
                ({ node := summaryOf s₀ nd.uidD, attribute_type := nd.attribute_type,
                   attribute_class := nd.attribute_class } : AttributeRecord)),
            transform_updates := st.diag.transform_updates ++
              (SceneNode.walkList cs).map (fun nd =>
                ({ node := summaryOf s₀ nd.uidD, translation := nd.translation,
                   rotation := nd.rotation,
                   scaling := nd.scaling } : TransformRecord)) } := by
  cases cs with
  | nil =>
    intro st parentFbx hwf hlist hch hsl hE
    rw [syncChildren]
    refine ⟨hsl, rfl, ?_, rfl, rfl, ?_⟩
    · intro w
      rw [SceneNode.walkList]
      simp
    · rw [SceneNode.walkList]
      simp
  | cons c rest =>
    intro st parentFbx hwf hlist hch hsl hE
    obtain ⟨hmc, hmrest⟩ := matchesFromList_unpack hlist
    obtain ⟨uc, hcu, hcpar⟩ := hch c (List.mem_cons_self _ _)
    have hEc : ∀ w ∈ c.preUids, w ∈ st.existing_nodes := by
      intro w hw
      apply hE
      rw [walkList_cons, List.map_append]
      exact List.mem_append_left _ hw
    obtain ⟨hsl1, hex1, hused1, hmod1, huid1, hdiag1⟩ :=
      sync_matched resolve s₀ c st uc parentFbx hwf hmc hcu hcpar hsl hEc
    have hErest : ∀ w ∈ (SceneNode.walkList rest).map SceneNode.uidD,
        w ∈ (sync resolve st c parentFbx).1.existing_nodes := by
      intro w hw
      rw [hex1]
      apply hE
      rw [walkList_cons, List.map_append]
      exact List.mem_append_right _ hw
    have hchrest : ∀ c' ∈ rest, ∃ uc', c'.uid = some uc' ∧
        s₀.parentOf uc' = some parentFbx := by
      intro c' hc'
      exact hch c' (List.mem_cons_of_mem _ hc')
    obtain ⟨hsl2, hex2, hused2, hmod2, huid2, hdiag2⟩ :=
      syncChildren_matched resolve s₀ rest (sync resolve st c parentFbx).1 parentFbx
        hwf hmrest hchrest hsl1 hErest
    rw [syncChildren]
    refine ⟨hsl2, ?_, ?_, ?_, ?_, ?_⟩
    · rw [hex2, hex1]
    · intro w
      rw [hused2, hused1 w, walkList_cons, List.map_append, List.mem_append]
      tauto
    · rw [hmod2, hmod1]
    · rw [huid2, huid1, List.map_cons]
      rw [SceneNode.uidD, hcu]
      rfl
    · rw [hdiag2, hdiag1, walkList_cons, List.map_append, List.map_append]
      simp [List.append_assoc]
      exact ⟨rfl, rfl⟩

end

theorem preUids_mk (n a b : String) (tr r sc : Vec3) (u : Nat) (pu : Option Nat)
    (op : List Nat) (cs : List SceneNode) :
    (SceneNode.mk n a b tr r sc (some u) pu op cs).preUids
      = u :: (SceneNode.walkList cs).map SceneNode.uidD := by
  rw [SceneNode.preUids, walk_mk, List.map_cons]
  congr 1

theorem walkStore_succ (s : Store) (k u : Nat) (path : List Nat) :
    walkStore s (k + 1) u path =
      (u :: (((s.childrenOf u).enum.map
          (fun e => walkStore s k e.2 (path ++ [e.1]))).map Prod.fst).flatten,
       (path, u) :: (((s.childrenOf u).enum.map
          (fun e => walkStore s k e.2 (path ++ [e.1]))).map Prod.snd).flatten) := rfl

mutual

theorem walkStore_matched (s : Store) (m : SceneNode) :
    ∀ (fuel : Nat) (path : List Nat),
      matchesFrom s m = true → SceneNode.height m ≤ fuel →
      (walkStore s fuel m.uidD path).1 = m.preUids := by
  cases m with
  | mk n a b tr r sc uidm pu op cs =>
    intro fuel path hm hh
    obtain ⟨u, hu, hchild, hlook, hcuid, hlist⟩ := matchesFrom_unpack hm
    subst hu
    cases fuel with
    | zero =>
      rw [SceneNode.height] at hh
      omega
    | succ k =>
      have hfm : SceneNode.heightList cs ≤ k := by
        rw [SceneNode.height] at hh
        omega
      have huidD : (SceneNode.mk n a b tr r sc (some u) pu op cs).uidD = u := rfl
      rw [huidD, walkStore_succ]
      dsimp only
      rw [preUids_mk]
      congr 1
      rw [hchild, List.map_map]
      exact walkStoreList_matched s cs k 0 path hlist hfm

theorem walkStoreList_matched (s : Store) (cs : List SceneNode) :
    ∀ (fuel i : Nat) (path : List Nat),
      matchesFromList s cs = true → SceneNode.heightList cs ≤ fuel →
      (((cs.map SceneNode.uidD).enumFrom i).map
          (fun e => (walkStore s fuel e.2 (path ++ [e.1])).1)).flatten
        = (SceneNode.walkList cs).map SceneNode.uidD := by
  cases cs with
  | nil =>
    intro fuel i path hl hh
    rw [SceneNode.walkList]
    rfl
  | cons c rest =>
    intro fuel i path hl hh
    obtain ⟨hmc, hmrest⟩ := matchesFromList_unpack hl
    rw [SceneNode.heightList] at hh
    have hhc : SceneNode.height c ≤ fuel := le_trans (le_max_left _ _) hh
    have hhrest : SceneNode.heightList rest ≤ fuel := le_trans (le_max_right _ _) hh
    rw [List.map_cons, List.enumFrom_cons, List.map_cons, List.flatten_cons]
    rw [walkList_cons, List.map_append]
    congr 1
    · exact walkStore_matched s c fuel (path ++ [i]) hmc hhc
    · exact walkStoreList_matched s rest fuel (i + 1) path hmrest hhrest

end

/-- If every uid of the node-index snapshot is marked used, the prune pass
is the identity on both the store and the diagnostics. -/
theorem prune_noop (rootUid : Nat) (used existing : List Nat)
    (h : ∀ u ∈ existing, u ∈ used) :
    ∀ acc, existing.foldl (prune_step rootUid used) acc = acc := by
  induction existing with
  | nil => intro acc; rfl
  | cons x xs ih =>
    intro acc
    have hx : used.contains x = true :=
      contains_iff_mem.mpr (h x (List.mem_cons_self _ _))
    have hstep : prune_step rootUid used acc x = acc := by
      rw [prune_step]
      simp [hx]
      intro _ hxu
      exact absurd (contains_iff_mem.mp hx) hxu
    rw [List.foldl_cons, hstep]
    exact ih (fun u hu => h u (List.mem_cons_of_mem _ hu)) acc

theorem sync_matched_root (resolve : String → Option Nat) (s₀ : Store) (m : SceneNode)
    (st : SyncState)
    (hwf : s₀.wf = true)
    (hm : matched s₀ m = true)
    (hsl : StructLike s₀ st.store)
    (hE : ∀ w ∈ m.preUids, w ∈ st.existing_nodes) :
    StructLike s₀ (sync resolve st m s₀.rootUid).1.store ∧
    (sync resolve st m s₀.rootUid).1.existing_nodes = st.existing_nodes ∧
    (∀ w, w ∈ (sync resolve st m s₀.rootUid).1.used_uids ↔
      w ∈ st.used_uids ∨ w ∈ m.preUids) ∧
    (sync resolve st m s₀.rootUid).2.1 = m ∧
    (sync resolve st m s₀.rootUid).2.2 = s₀.rootUid ∧
    (sync resolve st m s₀.rootUid).1.diag =
      { st.diag with
          reparented_nodes := st.diag.reparented_nodes ++ [rootReparentRecord s₀],
          attribute_updates := st.diag.attribute_updates ++ expectedAttrRecords s₀ m,
          transform_updates :=
            st.diag.transform_updates ++ expectedTransformRecords s₀ m } := by
  rw [matched, Bool.and_eq_true] at hm
  obtain ⟨hmu0, hmf⟩ := hm
  have hmu : m.uid = some s₀.rootUid := of_decide_eq_true hmu0
  cases m with
  | mk mname mA mB mT mR mS uidm pu op cs =>
    rw [SceneNode.uid] at hmu
    subst hmu
    obtain ⟨u', hu', hchild, hlook, hcuid, hlist⟩ := matchesFrom_unpack hmf
    obtain rfl : s₀.rootUid = u' := by injection hu'
    have hpre := preUids_mk mname mA mB mT mR mS s₀.rootUid pu op cs
    have hru : st.store.rootUid = s₀.rootUid := StructLike.rootUid_eq hsl
    have hEu : s₀.rootUid ∈ st.existing_nodes := by
      apply hE
      rw [hpre]
      exact List.mem_cons_self _ _
    have hmem : st.store.rootUid ∈ st.existing_nodes := by rw [hru]; exact hEu
    have hparnone : st.store.parentOf st.store.rootUid = none := by
      rw [hru, StructLike.parentOf_eq hsl]
      exact Store.parentOf_root hwf
    have hbranch := syncResolveNode_root st mname pu op hmem hparnone
    rw [hru] at hbranch
    rw [StructLike.summaryOf_eq hsl] at hbranch
    obtain ⟨hsl3, hex3, hused3, hdiag3⟩ :=
      syncApply_matched resolve s₀
        { st with diag := (st.diag.record_reparent (summaryOf s₀ s₀.rootUid) none
            (some (summaryOf s₀ s₀.rootUid))) }
        mA mB mT mR mS op s₀.rootUid hsl
    have hchildhyp : ∀ c ∈ cs, ∃ uc, c.uid = some uc ∧
        s₀.parentOf uc = some s₀.rootUid := by
      intro c hc
      cases hcu : c.uid with
      | none =>
        have := hcuid c hc
        rw [hcu] at this
        simp at this
      | some uc =>
        refine ⟨uc, rfl, ?_⟩
        apply Store.parentOf_of_mem_children hwf
        rw [hchild]
        have huc : SceneNode.uidD c = uc := by rw [SceneNode.uidD, hcu]; rfl
        rw [← huc]
        exact List.mem_map_of_mem _ hc
    have hE3 : ∀ w ∈ (SceneNode.walkList cs).map SceneNode.uidD,
        w ∈ (syncApply resolve
          { st with diag := (st.diag.record_reparent (summaryOf s₀ s₀.rootUid) none
              (some (summaryOf s₀ s₀.rootUid))) }
          mA mB mT mR mS op s₀.rootUid).existing_nodes := by
      intro w hw
      rw [hex3, mem_insertKey]
      left
      show w ∈ st.existing_nodes
      apply hE
      rw [hpre]
      exact List.mem_cons_of_mem _ hw
    obtain ⟨hslr, hexr, husedr, hmodsr, huidsr, hdiagr⟩ :=
      syncChildren_matched resolve s₀ cs
        (syncApply resolve
          { st with diag := (st.diag.record_reparent (summaryOf s₀ s₀.rootUid) none
              (some (summaryOf s₀ s₀.rootUid))) }
          mA mB mT mR mS op s₀.rootUid) s₀.rootUid
        hwf hlist hchildhyp hsl3 hE3
    have hnoop : remove_orphaned_children
        (syncChildren resolve (syncApply resolve
          { st with diag := (st.diag.record_reparent (summaryOf s₀ s₀.rootUid) none
              (some (summaryOf s₀ s₀.rootUid))) }
          mA mB mT mR mS op s₀.rootUid) cs s₀.rootUid).1.store s₀.rootUid
        (syncChildren resolve (syncApply resolve
          { st with diag := (st.diag.record_reparent (summaryOf s₀ s₀.rootUid) none
              (some (summaryOf s₀ s₀.rootUid))) }
          mA mB mT mR mS op s₀.rootUid) cs s₀.rootUid).2.2
        (syncChildren resolve (syncApply resolve
          { st with diag := (st.diag.record_reparent (summaryOf s₀ s₀.rootUid) none
              (some (summaryOf s₀ s₀.rootUid))) }
          mA mB mT mR mS op s₀.rootUid) cs s₀.rootUid).1.diag =
        ((syncChildren resolve (syncApply resolve
          { st with diag := (st.diag.record_reparent (summaryOf s₀ s₀.rootUid) none
              (some (summaryOf s₀ s₀.rootUid))) }
          mA mB mT mR mS op s₀.rootUid) cs s₀.rootUid).1.store,
         (syncChildren resolve (syncApply resolve
          { st with diag := (st.diag.record_reparent (summaryOf s₀ s₀.rootUid) none
              (some (summaryOf s₀ s₀.rootUid))) }
          mA mB mT mR mS op s₀.rootUid) cs s₀.rootUid).1.diag) := by
      apply remove_orphans_noop
      intro c hc
      rw [StructLike.childrenOf_eq hslr, hchild] at hc
      rw [huidsr]
      exact hc
    have hExpA : expectedAttrRecords s₀
          (SceneNode.mk mname mA mB mT mR mS (some s₀.rootUid) pu op cs) =
        ({ node := summaryOf s₀ s₀.rootUid, attribute_type := mA,
           attribute_class := mB } : AttributeRecord) ::
          (SceneNode.walkList cs).map (fun nd =>
            ({ node := summaryOf s₀ nd.uidD, attribute_type := nd.attribute_type,
               attribute_class := nd.attribute_class } : AttributeRecord)) := by
      rw [expectedAttrRecords, walk_mk, List.map_cons]
      congr 1
    have hExpT : expectedTransformRecords s₀
          (SceneNode.mk mname mA mB mT mR mS (some s₀.rootUid) pu op cs) =
        ({ node := summaryOf s₀ s₀.rootUid, translation := mT, rotation := mR,
           scaling := mS } : TransformRecord) ::
          (SceneNode.walkList cs).map (fun nd =>
            ({ node := summaryOf s₀ nd.uidD, translation := nd.translation,
               rotation := nd.rotation, scaling := nd.scaling } : TransformRecord)) := by
      rw [expectedTransformRecords, walk_mk, List.map_cons]
      congr 1
    rw [sync]
    simp only [hbranch]
    rw [hnoop]
    refine ⟨hslr, ?_, ?_, ?_, ?_, ?_⟩
    · rw [hexr, hex3]
      exact insertKey_of_mem hEu
    · intro w
      rw [husedr w, hused3, mem_insertKey, hpre, List.mem_cons]
      tauto
    · rw [hmodsr]
    · trivial
    · show (syncChildren resolve (syncApply resolve
          { st with diag := (st.diag.record_reparent (summaryOf s₀ s₀.rootUid) none
              (some (summaryOf s₀ s₀.rootUid))) }
          mA mB mT mR mS op s₀.rootUid) cs s₀.rootUid).1.diag = _
      rw [hdiagr, hdiag3, hExpA, hExpT]
      simp [List.append_assoc, SceneExportDiagnostics.record_reparent, rootReparentRecord]

/-- A full reconciliation run on a store that already matches the model (with
enough walk fuel for the model height, which always holds for tree-shaped
scenes): the store keeps its structure and names, the model is returned
unchanged, and the diagnostics gain exactly the spurious root reparent entry
plus one attribute record and one transform record per model node. -/
theorem apply_matched (resolve : String → Option Nat) (s : Store) (m : SceneNode)
    (d : SceneExportDiagnostics)
    (hwf : s.wf = true) (hm : matched s m = true)
    (hh : SceneNode.height m ≤ s.nodes.length + 1) :
    StructLike s (apply_scene_graph_changes resolve s m d).store ∧
    (apply_scene_graph_changes resolve s m d).model = m ∧
    (apply_scene_graph_changes resolve s m d).diag =
      { d with
          reparented_nodes := d.reparented_nodes ++ [rootReparentRecord s],
          attribute_updates := d.attribute_updates ++ expectedAttrRecords s m,
          transform_updates := d.transform_updates ++ expectedTransformRecords s m } := by
  have hm' := hm
  rw [matched, Bool.and_eq_true] at hm'
  obtain ⟨hmu0, hmf⟩ := hm'
  have hmu : m.uid = some s.rootUid := of_decide_eq_true hmu0
  have hmuD : m.uidD = s.rootUid := by rw [SceneNode.uidD, hmu]; rfl
  have hwalk : (map_scene_nodes s).1 = m.preUids := by
    rw [map_scene_nodes, ← hmuD]
    exact walkStore_matched s m (s.nodes.length + 1) [] hmf hh
  have hE0 : ∀ w ∈ m.preUids, w ∈ (map_scene_nodes s).1 := by
    intro w hw
    rw [hwalk]
    exact hw
  obtain ⟨hslr, hexr, husedr, hmodr, huidr, hdiagr⟩ :=
    sync_matched_root resolve s m
      { store := s, existing_nodes := (map_scene_nodes s).1,
        existing_paths := (map_scene_nodes s).2, used_uids := [], diag := d }
      hwf hm (StructLike.refl s) hE0
  have hexr' : (sync resolve
      { store := s, existing_nodes := (map_scene_nodes s).1,
        existing_paths := (map_scene_nodes s).2, used_uids := [], diag := d }
      m s.rootUid).1.existing_nodes = m.preUids := by
    rw [hexr]
    exact hwalk
  have hsub : ∀ u ∈ (sync resolve
      { store := s, existing_nodes := (map_scene_nodes s).1,
        existing_paths := (map_scene_nodes s).2, used_uids := [], diag := d }
      m s.rootUid).1.existing_nodes, u ∈ (sync resolve
      { store := s, existing_nodes := (map_scene_nodes s).1,
        existing_paths := (map_scene_nodes s).2, used_uids := [], diag := d }
      m s.rootUid).1.used_uids := by
    intro u hu
    rw [hexr'] at hu
    exact (husedr u).mpr (Or.inr hu)
  have hprune := prune_noop s.rootUid
    (sync resolve
      { store := s, existing_nodes := (map_scene_nodes s).1,
        existing_paths := (map_scene_nodes s).2, used_uids := [], diag := d }
      m s.rootUid).1.used_uids
    (sync resolve
      { store := s, existing_nodes := (map_scene_nodes s).1,
        existing_paths := (map_scene_nodes s).2, used_uids := [], diag := d }
      m s.rootUid).1.existing_nodes
    hsub
  simp only [apply_scene_graph_changes, prune_unused_nodes]
  rw [hprune]
  exact ⟨hslr, hmodr, hdiagr⟩

theorem StructLike.nodes_length_eq {s t : Store} (h : StructLike s t) :
    t.nodes.length = s.nodes.length := by
  have h1 := congrArg Prod.snd h.1
  simp only [structProj] at h1
  have := congrArg List.length h1
  simpa using this

theorem rootReparentRecord_structLike {s t : Store} (h : StructLike s t) :
    rootReparentRecord t = rootReparentRecord s := by
  rw [rootReparentRecord, rootReparentRecord, StructLike.rootUid_eq h,
    StructLike.summaryOf_eq h]

theorem expectedAttrRecords_structLike {s t : Store} (h : StructLike s t)
    (m : SceneNode) : expectedAttrRecords t m = expectedAttrRecords s m := by
  rw [expectedAttrRecords, expectedAttrRecords]
  induction m.walk with
  | nil => rfl
  | cons x xs ih =>
    rw [List.map_cons, List.map_cons, ih, StructLike.summaryOf_eq h]

theorem expectedTransformRecords_structLike {s t : Store} (h : StructLike s t)
    (m : SceneNode) : expectedTransformRecords t m = expectedTransformRecords s m := by
  rw [expectedTransformRecords, expectedTransformRecords]
  induction m.walk with
  | nil => rfl
  | cons x xs ih =>
    rw [List.map_cons, List.map_cons, ih, StructLike.summaryOf_eq h]

/-- C3 (counterexample): a store that already matches the model perfectly —
same structure, resolvable uids, identical attribute and transform values
(the run leaves the store bit-for-bit unchanged) — still gets one reparent
entry (the scene root artifact), one attribute update and one transform
update recorded. -/
theorem reconciliation_spurious_records_counterexample :
    cexStore.wf = true ∧
    matched cexStore cexModel = true ∧
    cexRun1.store = cexStore ∧
    cexRun1.diag.created_nodes = [] ∧
    cexRun1.diag.removed_orphans = [] ∧
    cexRun1.diag.pruned_nodes = [] ∧
    cexRun1.diag.reparented_nodes.length = 1 ∧
    cexRun1.diag.attribute_updates.length = 1 ∧
    cexRun1.diag.transform_updates.length = 1 := by decide

/-- C3 (amended): on a well-formed store that matches the model (every node
uid resolvable, identical structure), reconciliation records zero creations,
zero orphan removals and zero prunes, but exactly ONE reparent entry — the
spurious scene-root entry — and one attribute update plus one transform
update per model node, recorded unconditionally whether or not the fields
changed; the store keeps its structure and the model is returned unchanged. -/
theorem reconciliation_matched_run_records (resolve : String → Option Nat)
    (s : Store) (m : SceneNode) (d : SceneExportDiagnostics)
    (hwf : s.wf = true) (hm : matched s m = true)
    (hh : SceneNode.height m ≤ s.nodes.length + 1) :
    (apply_scene_graph_changes resolve s m d).diag.created_nodes = d.created_nodes ∧
    (apply_scene_graph_changes resolve s m d).diag.removed_orphans
      = d.removed_orphans ∧
    (apply_scene_graph_changes resolve s m d).diag.pruned_nodes = d.pruned_nodes ∧
    (apply_scene_graph_changes resolve s m d).diag.reparented_nodes
      = d.reparented_nodes ++ [rootReparentRecord s] ∧
    (apply_scene_graph_changes resolve s m d).diag.attribute_updates
      = d.attribute_updates ++ expectedAttrRecords s m ∧
    (apply_scene_graph_changes resolve s m d).diag.transform_updates
      = d.transform_updates ++ expectedTransformRecords s m ∧
    (apply_scene_graph_changes resolve s m d).model = m ∧
    StructLike s (apply_scene_graph_changes resolve s m d).store := by
  obtain ⟨hsl, hmod, hdiag⟩ := apply_matched resolve s m d hwf hm hh
  rw [hdiag]
  exact ⟨rfl, rfl, rfl, rfl, rfl, rfl, hmod, hsl⟩

theorem reconciliation_matched_run_records_witness :
    cexStore.wf = true ∧
    matched cexStore cexModel = true ∧
    SceneNode.height cexModel ≤ cexStore.nodes.length + 1 ∧
    (apply_scene_graph_changes (fun _ => none) cexStore cexModel {}).diag.reparented_nodes
      = ({} : SceneExportDiagnostics).reparented_nodes ++ [rootReparentRecord cexStore] :=
  ⟨by decide, by decide, by decide,
   (reconciliation_matched_run_records (fun _ => none) cexStore cexModel {}
      (by decide) (by decide) (by decide)).2.2.2.1⟩

/-- C2 (counterexample): running the reconciliation a second time with the
model returned by the first run, against the store the first run produced,
appends a second reparent entry, a second attribute update and a second
transform update — the pass is not idempotent at the diagnostics level. -/
theorem reconciliation_not_idempotent_counterexample :
    cexRun1.diag.reparented_nodes.length = 1 ∧
    cexRun1.diag.attribute_updates.length = 1 ∧
    cexRun1.diag.transform_updates.length = 1 ∧
    cexRun2.diag.reparented_nodes.length = 2 ∧
    cexRun2.diag.attribute_updates.length = 2 ∧
    cexRun2.diag.transform_updates.length = 2 ∧
    cexRun2.diag.created_nodes = [] ∧
    cexRun2.diag.removed_orphans = [] ∧
    cexRun2.diag.pruned_nodes = [] := by decide

/-- C2 (amended): the second run performs no structural change either (no
creations, orphan removals or prunes, and the store keeps its structure),
but it appends the same diagnostics delta again: a second spurious root
reparent entry and a second unconditional attribute and transform record
per model node. -/
theorem reconciliation_second_run_repeats_records (resolve : String → Option Nat)
    (s : Store) (m : SceneNode) (d : SceneExportDiagnostics)
    (hwf : s.wf = true) (hm : matched s m = true)
    (hh : SceneNode.height m ≤ s.nodes.length + 1) :
    (apply_scene_graph_changes resolve
        (apply_scene_graph_changes resolve s m d).store
        (apply_scene_graph_changes resolve s m d).model
        (apply_scene_graph_changes resolve s m d).diag).diag.created_nodes
      = d.created_nodes ∧
    (apply_scene_graph_changes resolve
        (apply_scene_graph_changes resolve s m d).store
        (apply_scene_graph_changes resolve s m d).model
        (apply_scene_graph_changes resolve s m d).diag).diag.removed_orphans
      = d.removed_orphans ∧
    (apply_scene_graph_changes resolve
        (apply_scene_graph_changes resolve s m d).store
        (apply_scene_graph_changes resolve s m d).model
        (apply_scene_graph_changes resolve s m d).diag).diag.pruned_nodes
      = d.pruned_nodes ∧
    (apply_scene_graph_changes resolve
        (apply_scene_graph_changes resolve s m d).store
        (apply_scene_graph_changes resolve s m d).model
        (apply_scene_graph_changes resolve s m d).diag).diag.reparented_nodes
      = d.reparented_nodes ++ [rootReparentRecord s] ++ [rootReparentRecord s] ∧
    (apply_scene_graph_changes resolve
        (apply_scene_graph_changes resolve s m d).store
        (apply_scene_graph_changes resolve s m d).model
        (apply_scene_graph_changes resolve s m d).diag).diag.attribute_updates
      = d.attribute_updates ++ expectedAttrRecords s m ++ expectedAttrRecords s m ∧
    (apply_scene_graph_changes resolve
        (apply_scene_graph_changes resolve s m d).store
        (apply_scene_graph_changes resolve s m d).model
        (apply_scene_graph_changes resolve s m d).diag).diag.transform_updates
      = d.transform_updates ++ expectedTransformRecords s m
          ++ expectedTransformRecords s m ∧
    (apply_scene_graph_changes resolve
        (apply_scene_graph_changes resolve s m d).store
        (apply_scene_graph_changes resolve s m d).model
        (apply_scene_graph_changes resolve s m d).diag).model = m ∧
    StructLike s (apply_scene_graph_changes resolve
        (apply_scene_graph_changes resolve s m d).store
        (apply_scene_graph_changes resolve s m d).model
        (apply_scene_graph_changes resolve s m d).diag).store := by
  obtain ⟨hsl1, hmod1, hdiag1⟩ := apply_matched resolve s m d hwf hm hh
  have hwf1 : (apply_scene_graph_changes resolve s m d).store.wf = true := by
    rw [StructLike.wf_eq hsl1]
    exact hwf
  have hm1 : matched (apply_scene_graph_changes resolve s m d).store m = true := by
    rw [matched_structLike hsl1]
    exact hm
  have hh1 : SceneNode.height m
      ≤ (apply_scene_graph_changes resolve s m d).store.nodes.length + 1 := by
    rw [StructLike.nodes_length_eq hsl1]
    exact hh
  rw [hmod1]
  obtain ⟨hsl2, hmod2, hdiag2⟩ :=
    apply_matched resolve (apply_scene_graph_changes resolve s m d).store m
      (apply_scene_graph_changes resolve s m d).diag hwf1 hm1 hh1
  refine ⟨?_, ?_, ?_, ?_, ?_, ?_, hmod2, StructLike.trans hsl1 hsl2⟩
  · rw [hdiag2]
    show (apply_scene_graph_changes resolve s m d).diag.created_nodes = d.created_nodes
    rw [hdiag1]
  · rw [hdiag2]
    show (apply_scene_graph_changes resolve s m d).diag.removed_orphans
      = d.removed_orphans
    rw [hdiag1]
  · rw [hdiag2]
    show (apply_scene_graph_changes resolve s m d).diag.pruned_nodes = d.pruned_nodes
    rw [hdiag1]
  · rw [hdiag2]
    show (apply_scene_graph_changes resolve s m d).diag.reparented_nodes
        ++ [rootReparentRecord (apply_scene_graph_changes resolve s m d).store]
      = d.reparented_nodes ++ [rootReparentRecord s] ++ [rootReparentRecord s]
    rw [hdiag1, rootReparentRecord_structLike hsl1]
  · rw [hdiag2]
    show (apply_scene_graph_changes resolve s m d).diag.attribute_updates
        ++ expectedAttrRecords (apply_scene_graph_changes resolve s m d).store m
      = d.attribute_updates ++ expectedAttrRecords s m ++ expectedAttrRecords s m
    rw [hdiag1, expectedAttrRecords_structLike hsl1]
  · rw [hdiag2]
    show (apply_scene_graph_changes resolve s m d).diag.transform_updates
        ++ expectedTransformRecords (apply_scene_graph_changes resolve s m d).store m
      = d.transform_updates ++ expectedTransformRecords s m
          ++ expectedTransformRecords s m
    rw [hdiag1, expectedTransformRecords_structLike hsl1]

theorem reconciliation_second_run_repeats_records_witness :
    cexStore.wf = true ∧
    matched cexStore cexModel = true ∧
    SceneNode.height cexModel ≤ cexStore.nodes.length + 1 ∧
    (apply_scene_graph_changes (fun _ => none)
        (apply_scene_graph_changes (fun _ => none) cexStore cexModel {}).store
        (apply_scene_graph_changes (fun _ => none) cexStore cexModel {}).model
        (apply_scene_graph_changes (fun _ => none) cexStore
          cexModel {}).diag).diag.reparented_nodes
      = ({} : SceneExportDiagnostics).reparented_nodes
          ++ [rootReparentRecord cexStore] ++ [rootReparentRecord cexStore] :=
  ⟨by decide, by decide, by decide,
   (reconciliation_second_run_repeats_records (fun _ => none) cexStore cexModel {}
      (by decide) (by decide) (by decide)).2.2.2.1⟩
